import Mathlib

/-!
# NMTV backend — verification of the block-assembly and mixing engine

A shallow embedding of the programming-block assembly code of the NMTV
backend (an Express server composing "programming blocks" of music videos):
the Fisher–Yates shuffle, the playlist cache, the single-source block
builder with its fill loop, the multi-source 50/50 mixer, the two bumper
interleavers, the dual-backend fallback orchestrator, and the
unavailability tracker.

Conventions of the embedding:
* JavaScript asynchrony is ignored (every awaited call is a value);
  thrown errors become `Except String`.
* `Math.random()`-driven choices become explicit oracle parameters:
  a shuffle takes `r : Nat → Nat` (the value drawn at loop index `i` is
  `r i % (i+1)`), a random array pick takes an index oracle, and the
  bumper picker of the store path takes `pick : Option Nat → Nat`
  (the index accepted by the source's rejection loop, given the last one).
* Database queries and upstream (YouTube) fetches become oracle
  parameters returning the rows/items the call would produce.
* JavaScript `undefined` produced by an out-of-range array access is
  modelled by the placeholder `noItem`.
-/

namespace NMTV

/-- An item of a block: a video or a bumper, as the server ships it
(`{id, title, artist?, song?, year?, isLimited?, isBumper}`); raw fetched
videos also carry the playlist id/label that some paths attach. -/
structure Item where
  id : String
  title : Option String := none
  artist : Option String := none
  song : Option String := none
  year : Option Int := none
  isLimited : Bool := false
  isBumper : Bool := false
  playlistId : Option String := none
  playlistLabel : Option String := none
deriving DecidableEq, Repr

/-- Placeholder for a JavaScript `undefined` array read (out-of-range
access); unreachable under the hypotheses of the theorems below. -/
def noItem : Item := { id := "" }

/-- A served block: `{playlistLabel, playlistId, items}`. -/
structure Block where
  playlistLabel : Option String
  playlistId : String
  items : List Item
deriving DecidableEq, Repr

/-! ## The Fisher–Yates shuffle (`shuffle` in the source)

```js
function shuffle(arr) {
  for (let i = arr.length - 1; i > 0; i--) {
    const j = Math.floor(Math.random() * (i + 1));
    [arr[i], arr[j]] = [arr[j], arr[i]];
  }
  return arr;
}
```
The random draw at loop index `i` is modelled by `r i % (i + 1)`. -/

/-- Swap the entries at positions `i` and `j`; out-of-range indices leave
the list unchanged (in the shuffle both indices are always in range). -/
def listSwap (l : List α) (i j : Nat) : List α :=
  match l[i]?, l[j]? with
  | some x, some y => (l.set i y).set j x
  | _, _ => l

/-- The shuffle loop: iterate `listSwap` for `i = n, n-1, …, 1`. -/
def shuffleAux (r : Nat → Nat) (l : List α) : Nat → List α
  | 0 => l
  | i + 1 => shuffleAux r (listSwap l (i + 1) (r (i + 1) % (i + 2))) i

/-- Fisher–Yates shuffle driven by the random oracle `r`. -/
def shuffle (r : Nat → Nat) (l : List α) : List α :=
  shuffleAux r l (l.length - 1)

theorem set_cons_perm {α : Type _} (t : List α) :
    ∀ (k : Nat) (x y : α), t[k]? = some y → (y :: t.set k x).Perm (x :: t) := by
  induction t with
  | nil => intro k x y h; simp at h
  | cons b s ih =>
    intro k x y h
    cases k with
    | zero =>
      have hb : b = y := by simpa using h
      rw [hb]
      simpa [List.set] using List.Perm.swap x y s
    | succ m =>
      simp only [List.getElem?_cons_succ] at h
      have hperm := ih m x y h
      have h1 : (b :: s).set (m + 1) x = b :: s.set m x := by simp [List.set]
      rw [h1]
      exact (List.Perm.swap b y _).trans ((hperm.cons b).trans (List.Perm.swap x b s))

theorem listSwap_perm {α : Type _} (l : List α) (i j : Nat) :
    (listSwap l i j).Perm l := by
  induction l generalizing i j with
  | nil => simp [listSwap]
  | cons a t ih =>
    cases i with
    | zero =>
      cases j with
      | zero =>
        simp [listSwap, List.set]
      | succ m =>
        cases h : t[m]? with
        | none => simp [listSwap, h]
        | some y =>
          simp only [listSwap, List.getElem?_cons_zero, List.getElem?_cons_succ, h,
            List.set]
          exact set_cons_perm t m a y h
    | succ m =>
      cases j with
      | zero =>
        cases h : t[m]? with
        | none => simp [listSwap, h]
        | some x =>
          simp only [listSwap, List.getElem?_cons_zero, List.getElem?_cons_succ, h,
            List.set]
          exact set_cons_perm t m a x h
      | succ k =>
        simp only [listSwap, List.getElem?_cons_succ, List.set]
        cases hx : t[m]? with
        | none => simp
        | some x =>
          cases hy : t[k]? with
          | none => simp
          | some y =>
            have := ih m k
            simp only [listSwap, hx, hy] at this
            simpa [List.set] using this.cons a

theorem shuffleAux_perm {α : Type _} (r : Nat → Nat) (l : List α) (n : Nat) :
    (shuffleAux r l n).Perm l := by
  induction n generalizing l with
  | zero => simp [shuffleAux]
  | succ i ih =>
    exact (ih _).trans (listSwap_perm l (i + 1) (r (i + 1) % (i + 2)))

/-- The shuffle returns a permutation of its input (length, membership,
multiplicities, `Nodup` are all preserved). -/
theorem shuffle_perm {α : Type _} (r : Nat → Nat) (l : List α) :
    (shuffle r l).Perm l :=
  shuffleAux_perm r l (l.length - 1)

theorem shuffle_length {α : Type _} (r : Nat → Nat) (l : List α) :
    (shuffle r l).length = l.length :=
  (shuffle_perm r l).length_eq

/-! ## Bumper interleaving

`insertBumpersIntoBlock` (the cached-API path) and
`insertBumpersIntoBlockFromDB` (the store path). The source's numeric
`interval` argument (always `4`) is only used for its truthiness, so the
pattern is modelled by `BumperPattern`; `insertBumpersIntoBlock`'s
`!interval` guard makes its pattern an `Option`. The store path's
`getRandomBumper` rejection loop (`do … while (bumperIndex ===
lastBumperIndex)`) is modelled by the oracle `pick : Option Nat → Nat`
giving the index the loop accepts for a given previous index. -/

/-- The bumper-insertion pattern: the fixed shows shape
`[v1, BUMPER, v2, v3, BUMPER]`, or the positional music/live shape
(insert after source indices 1, 5, 9, 11). -/
inductive BumperPattern where
  | shows
  | positional
deriving DecidableEq, Repr

/-- The positional loop of `insertBumpersIntoBlock`: `i` is the source
index, `k` the running `bumperIndex`; a bumper `sb[k % sb.length]` is
pushed after indices 1, 5, 9, 11. -/
def ibGo (sb : List Item) : List Item → Nat → Nat → List Item
  | [], _, _ => []
  | v :: rest, i, k =>
    if i = 1 ∨ i = 5 ∨ i = 9 ∨ i = 11 then
      v :: sb.getD (k % sb.length) noItem :: ibGo sb rest (i + 1) (k + 1)
    else
      v :: ibGo sb rest (i + 1) k

/-- `insertBumpersIntoBlock(videos, interval)` of the cached-API path,
with the module-level `bumpersCache` and the shuffle's randomness passed
explicitly (a `null` cache behaves as the empty list). -/
def insertBumpersIntoBlock (bumpers : List Item) (rb : Nat → Nat)
    (videos : List Item) (interval : Option BumperPattern) : List Item :=
  if bumpers.isEmpty ∨ interval = none then videos
  else
    let sb := shuffle rb bumpers
    match interval with
    | some .shows =>
        [videos.getD 0 noItem, sb.getD (0 % sb.length) noItem,
         videos.getD 1 noItem, videos.getD 2 noItem,
         sb.getD (1 % sb.length) noItem]
    | _ => ibGo sb videos 0 0

/-- `getRandomBumper` of the store path: with a single bumper return it
(without touching `lastBumperIndex`); otherwise return the index the
rejection loop accepted (`pick last`) and remember it. -/
def getRandomBumper (pick : Option Nat → Nat) (bumpers : List Item)
    (last : Option Nat) : Item × Option Nat :=
  if bumpers.length = 1 then (bumpers.getD 0 noItem, last)
  else
    let i := pick last
    (bumpers.getD i noItem, some i)

/-- The positional loop of `insertBumpersIntoBlockFromDB`, threading
`lastBumperIndex` (`none` models the initial `-1`). -/
def ibdbGo (pick : Option Nat → Nat) (bumpers : List Item) :
    List Item → Nat → Option Nat → List Item
  | [], _, _ => []
  | v :: rest, i, last =>
    if i = 1 ∨ i = 5 ∨ i = 9 ∨ i = 11 then
      let p := getRandomBumper pick bumpers last
      v :: p.1 :: ibdbGo pick bumpers rest (i + 1) p.2
    else
      v :: ibdbGo pick bumpers rest (i + 1) last

/-- `insertBumpersIntoBlockFromDB(videos, bumpers, interval)`. -/
def insertBumpersIntoBlockFromDB (pick : Option Nat → Nat)
    (videos bumpers : List Item) (interval : BumperPattern) : List Item :=
  if bumpers.isEmpty then videos
  else
    match interval with
    | .shows =>
        let p1 := getRandomBumper pick bumpers none
        let p2 := getRandomBumper pick bumpers p1.2
        [videos.getD 0 noItem, p1.1, videos.getD 1 noItem,
         videos.getD 2 noItem, p2.1]
    | .positional => ibdbGo pick bumpers videos 0 none

/-! ### Helper lemmas for the interleavers -/

theorem exists_head {α : Type _} (l : List α) (n : Nat) (h : n + 1 ≤ l.length) :
    ∃ a t, l = a :: t ∧ n ≤ t.length := by
  cases l with
  | nil => simp at h
  | cons a t => exact ⟨a, t, rfl, by simpa using h⟩

/-- Past source index 11 the positional loop inserts nothing. -/
theorem ibGo_past (sb : List Item) :
    ∀ (rest : List Item) (i k : Nat), 12 ≤ i → ibGo sb rest i k = rest := by
  intro rest
  induction rest with
  | nil => intro i k _; rfl
  | cons v t ih =>
    intro i k hi
    have hcond : ¬(i = 1 ∨ i = 5 ∨ i = 9 ∨ i = 11) := by omega
    simp only [ibGo, if_neg hcond]
    rw [ih (i + 1) k (by omega)]

/-- Past source index 11 the store-path positional loop inserts nothing. -/
theorem ibdbGo_past (pick : Option Nat → Nat) (bumpers : List Item) :
    ∀ (rest : List Item) (i : Nat) (last : Option Nat), 12 ≤ i →
      ibdbGo pick bumpers rest i last = rest := by
  intro rest
  induction rest with
  | nil => intro i last _; rfl
  | cons v t ih =>
    intro i last hi
    have hcond : ¬(i = 1 ∨ i = 5 ∨ i = 9 ∨ i = 11) := by omega
    simp only [ibdbGo, if_neg hcond]
    rw [ih (i + 1) last (by omega)]

theorem getD_mem_of_lt {α : Type _} (l : List α) (n : Nat) (d : α)
    (h : n < l.length) : l.getD n d ∈ l := by
  rw [List.getD_eq_getElem l d h]
  exact List.getElem_mem h

theorem mod_mem {α : Type _} (l : List α) (k : Nat) (d : α) (h : l ≠ []) :
    l.getD (k % l.length) d ∈ l := by
  have hlen : 0 < l.length := List.length_pos.mpr h
  exact getD_mem_of_lt l _ d (Nat.mod_lt _ hlen)

theorem ibGo_explicit (sb : List Item)
    (v0 v1 v2 v3 v4 v5 v6 v7 v8 v9 v10 v11 : Item) (rest : List Item) :
    ibGo sb (v0 :: v1 :: v2 :: v3 :: v4 :: v5 :: v6 :: v7 :: v8 :: v9 ::
        v10 :: v11 :: rest) 0 0 =
      v0 :: v1 :: sb.getD (0 % sb.length) noItem ::
      v2 :: v3 :: v4 :: v5 :: sb.getD (1 % sb.length) noItem ::
      v6 :: v7 :: v8 :: v9 :: sb.getD (2 % sb.length) noItem ::
      v10 :: v11 :: sb.getD (3 % sb.length) noItem :: ibGo sb rest 12 4 := by
  rfl

theorem ibdbGo_explicit (pick : Option Nat → Nat) (bumpers : List Item)
    (v0 v1 v2 v3 v4 v5 v6 v7 v8 v9 v10 v11 : Item) (rest : List Item) :
    ibdbGo pick bumpers (v0 :: v1 :: v2 :: v3 :: v4 :: v5 :: v6 :: v7 :: v8 ::
        v9 :: v10 :: v11 :: rest) 0 none =
      v0 :: v1 :: (getRandomBumper pick bumpers none).1 ::
      v2 :: v3 :: v4 :: v5 ::
        (getRandomBumper pick bumpers
          (getRandomBumper pick bumpers none).2).1 ::
      v6 :: v7 :: v8 :: v9 ::
        (getRandomBumper pick bumpers
          (getRandomBumper pick bumpers
            (getRandomBumper pick bumpers none).2).2).1 ::
      v10 :: v11 ::
        (getRandomBumper pick bumpers
          (getRandomBumper pick bumpers
            (getRandomBumper pick bumpers
              (getRandomBumper pick bumpers none).2).2).2).1 ::
      ibdbGo pick bumpers rest 12
        (getRandomBumper pick bumpers
          (getRandomBumper pick bumpers
            (getRandomBumper pick bumpers
              (getRandomBumper pick bumpers none).2).2).2).2 := by
  rfl

/-- C2: with at least 12 non-bumper items and a non-empty bumper pool,
both positional interleavers (cached-API path and store path) produce a
block whose bumpers sit at exactly the 1-indexed positions 3, 8, 13, 16
(0-indexed 2, 7, 12, 15), one after each of the source positions 2, 6, 10,
12; the output has exactly four more entries than the input. -/
theorem c2_positional_bumper_positions
    (bumpers videos : List Item) (rb : Nat → Nat) (pick : Option Nat → Nat)
    (hlen : 12 ≤ videos.length) (hne : bumpers ≠ [])
    (hv : ∀ v ∈ videos, v.isBumper = false)
    (hb : ∀ b ∈ bumpers, b.isBumper = true)
    (hpick : ∀ last, pick last < bumpers.length) :
    ((insertBumpersIntoBlock bumpers rb videos (some .positional)).length
        = videos.length + 4 ∧
      ∀ j e,
        (insertBumpersIntoBlock bumpers rb videos (some .positional))[j]? = some e →
        (e.isBumper = true ↔ j = 2 ∨ j = 7 ∨ j = 12 ∨ j = 15)) ∧
    ((insertBumpersIntoBlockFromDB pick videos bumpers .positional).length
        = videos.length + 4 ∧
      ∀ j e,
        (insertBumpersIntoBlockFromDB pick videos bumpers .positional)[j]? = some e →
        (e.isBumper = true ↔ j = 2 ∨ j = 7 ∨ j = 12 ∨ j = 15)) := by
  obtain ⟨v0, t0, rfl, h0⟩ := exists_head videos 11 hlen
  obtain ⟨v1, t1, rfl, h1⟩ := exists_head t0 10 h0
  obtain ⟨v2, t2, rfl, h2⟩ := exists_head t1 9 h1
  obtain ⟨v3, t3, rfl, h3⟩ := exists_head t2 8 h2
  obtain ⟨v4, t4, rfl, h4⟩ := exists_head t3 7 h3
  obtain ⟨v5, t5, rfl, h5⟩ := exists_head t4 6 h4
  obtain ⟨v6, t6, rfl, h6⟩ := exists_head t5 5 h5
  obtain ⟨v7, t7, rfl, h7⟩ := exists_head t6 4 h6
  obtain ⟨v8, t8, rfl, h8⟩ := exists_head t7 3 h7
  obtain ⟨v9, t9, rfl, h9⟩ := exists_head t8 2 h8
  obtain ⟨v10, t10, rfl, h10⟩ := exists_head t9 1 h9
  obtain ⟨v11, rest, rfl, _⟩ := exists_head t10 0 h10
  have hv0 : v0.isBumper = false := hv v0 (by simp)
  have hv1 : v1.isBumper = false := hv v1 (by simp)
  have hv2 : v2.isBumper = false := hv v2 (by simp)
  have hv3 : v3.isBumper = false := hv v3 (by simp)
  have hv4 : v4.isBumper = false := hv v4 (by simp)
  have hv5 : v5.isBumper = false := hv v5 (by simp)
  have hv6 : v6.isBumper = false := hv v6 (by simp)
  have hv7 : v7.isBumper = false := hv v7 (by simp)
  have hv8 : v8.isBumper = false := hv v8 (by simp)
  have hv9 : v9.isBumper = false := hv v9 (by simp)
  have hv10 : v10.isBumper = false := hv v10 (by simp)
  have hv11 : v11.isBumper = false := hv v11 (by simp)
  have hrest : ∀ v ∈ rest, v.isBumper = false := fun v hv' => hv v (by simp [hv'])
  have hsbne : shuffle rb bumpers ≠ [] := by
    intro hc
    have := shuffle_length rb bumpers
    rw [hc] at this
    exact hne (List.eq_nil_of_length_eq_zero this.symm)
  have hsbB : ∀ m : Nat,
      (((shuffle rb bumpers)[m % (shuffle rb bumpers).length]?).getD noItem).isBumper
        = true := by
    intro m
    have := hb _ ((shuffle_perm rb bumpers).mem_iff.mp
      (mod_mem (shuffle rb bumpers) m noItem hsbne))
    simpa [List.getD_eq_getElem?_getD] using this
  have hsbB0 : (((shuffle rb bumpers)[0]?).getD noItem).isBumper = true := by
    simpa using hsbB 0
  have hgrbB : ∀ last, (getRandomBumper pick bumpers last).1.isBumper = true := by
    intro last
    unfold getRandomBumper
    by_cases h1' : bumpers.length = 1
    · simp only [h1', if_pos rfl]
      exact hb _ (getD_mem_of_lt bumpers 0 noItem (by omega))
    · simp only [if_neg h1']
      exact hb _ (getD_mem_of_lt bumpers (pick last) noItem (hpick last))
  have hout : insertBumpersIntoBlock bumpers rb
      (v0 :: v1 :: v2 :: v3 :: v4 :: v5 :: v6 :: v7 :: v8 :: v9 :: v10 :: v11 ::
        rest) (some .positional) =
      v0 :: v1 :: (shuffle rb bumpers).getD (0 % (shuffle rb bumpers).length) noItem ::
      v2 :: v3 :: v4 :: v5 ::
        (shuffle rb bumpers).getD (1 % (shuffle rb bumpers).length) noItem ::
      v6 :: v7 :: v8 :: v9 ::
        (shuffle rb bumpers).getD (2 % (shuffle rb bumpers).length) noItem ::
      v10 :: v11 ::
        (shuffle rb bumpers).getD (3 % (shuffle rb bumpers).length) noItem :: rest := by
    have hguard : ¬(bumpers.isEmpty = true ∨
        (some BumperPattern.positional : Option BumperPattern) = none) := by
      simp [List.isEmpty_iff, hne]
    rw [insertBumpersIntoBlock, if_neg hguard]
    exact (ibGo_explicit _ _ _ _ _ _ _ _ _ _ _ _ _ rest).trans
      (by rw [ibGo_past _ rest 12 4 (by omega)])
  have houtDB : insertBumpersIntoBlockFromDB pick
      (v0 :: v1 :: v2 :: v3 :: v4 :: v5 :: v6 :: v7 :: v8 :: v9 :: v10 :: v11 ::
        rest) bumpers .positional =
      v0 :: v1 :: (getRandomBumper pick bumpers none).1 ::
      v2 :: v3 :: v4 :: v5 ::
        (getRandomBumper pick bumpers
          (getRandomBumper pick bumpers none).2).1 ::
      v6 :: v7 :: v8 :: v9 ::
        (getRandomBumper pick bumpers
          (getRandomBumper pick bumpers
            (getRandomBumper pick bumpers none).2).2).1 ::
      v10 :: v11 ::
        (getRandomBumper pick bumpers
          (getRandomBumper pick bumpers
            (getRandomBumper pick bumpers
              (getRandomBumper pick bumpers none).2).2).2).1 :: rest := by
    rw [insertBumpersIntoBlockFromDB,
      if_neg (by simp [List.isEmpty_iff, hne] : ¬bumpers.isEmpty = true)]
    exact (ibdbGo_explicit pick bumpers _ _ _ _ _ _ _ _ _ _ _ _ rest).trans
      (by rw [ibdbGo_past pick bumpers rest 12 _ (by omega)])
  constructor
  · constructor
    · rw [hout]; simp; try omega
    · intro j e hj
      rw [hout] at hj
      rcases j with _|_|_|_|_|_|_|_|_|_|_|_|_|_|_|_|j
      all_goals simp only [List.getElem?_cons_zero, List.getElem?_cons_succ,
        Option.some.injEq] at hj
      all_goals first
        | (subst hj
           simp [hv0, hv1, hv2, hv3, hv4, hv5, hv6, hv7, hv8, hv9, hv10,
             hv11, hsbB, hsbB0])
        | (have hf : e.isBumper = false := hrest e (List.getElem?_mem hj)
           simp [hf]
           try omega)
  · constructor
    · rw [houtDB]; simp; try omega
    · intro j e hj
      rw [houtDB] at hj
      rcases j with _|_|_|_|_|_|_|_|_|_|_|_|_|_|_|_|j
      all_goals simp only [List.getElem?_cons_zero, List.getElem?_cons_succ,
        Option.some.injEq] at hj
      all_goals first
        | (subst hj
           simp [hv0, hv1, hv2, hv3, hv4, hv5, hv6, hv7, hv8, hv9, hv10,
             hv11, hgrbB])
        | (have hf : e.isBumper = false := hrest e (List.getElem?_mem hj)
           simp [hf]
           try omega)

/-- Twelve concrete non-bumper items, used by witnesses below. -/
def witVideos : List Item :=
  [{ id := "va" }, { id := "vb" }, { id := "vc" }, { id := "vd" },
   { id := "ve" }, { id := "vf" }, { id := "vg" }, { id := "vh" },
   { id := "vi" }, { id := "vj" }, { id := "vk" }, { id := "vl" }]

/-- A concrete bumper. -/
def witBumper : Item := { id := "z", isBumper := true }

/-- A second concrete bumper with a different identifier. -/
def witBumper2 : Item := { id := "y", isBumper := true }

/-- C2 witness: the positional interleavers at 12 concrete items and a
one-bumper pool put bumpers exactly at 0-indexed positions 2, 7, 12, 15. -/
theorem c2_positional_bumper_positions_witness :
    ((insertBumpersIntoBlock [witBumper] (fun _ => 0) witVideos
        (some .positional)).length = 16 ∧
      ∀ j e,
        (insertBumpersIntoBlock [witBumper] (fun _ => 0) witVideos
          (some .positional))[j]? = some e →
        (e.isBumper = true ↔ j = 2 ∨ j = 7 ∨ j = 12 ∨ j = 15)) ∧
    ((insertBumpersIntoBlockFromDB (fun _ => 0) witVideos [witBumper]
        .positional).length = 16 ∧
      ∀ j e,
        (insertBumpersIntoBlockFromDB (fun _ => 0) witVideos [witBumper]
          .positional)[j]? = some e →
        (e.isBumper = true ↔ j = 2 ∨ j = 7 ∨ j = 12 ∨ j = 15)) := by
  have h := c2_positional_bumper_positions [witBumper] witVideos (fun _ => 0)
    (fun _ => 0) (by decide) (by decide) (by decide) (by decide)
    (fun _ => Nat.one_pos)
  exact ⟨⟨by simpa [witVideos] using h.1.1, h.1.2⟩,
    ⟨by simpa [witVideos] using h.2.1, h.2.2⟩⟩

/-! ### Adjacent-bumper distinctness -/

theorem mod_succ_ne (k n : Nat) (h : 2 ≤ n) : k % n ≠ (k + 1) % n := by
  have hk : k % n < n := Nat.mod_lt _ (by omega)
  have h1 : (1 : Nat) % n = 1 := Nat.mod_eq_of_lt (by omega)
  have hadd : (k + 1) % n = (k % n + 1) % n := by
    conv_lhs => rw [Nat.add_mod, h1]
  rcases Nat.lt_or_ge (k % n + 1) n with h2 | h2
  · rw [hadd, Nat.mod_eq_of_lt h2]; omega
  · have he : k % n + 1 = n := by omega
    rw [hadd, he, Nat.mod_self]; omega

theorem nodup_ids_getD_ne (l : List Item) (hnd : (l.map (·.id)).Nodup)
    (a b : Nat) (ha : a < l.length) (hb : b < l.length) (hab : a ≠ b) :
    (l.getD a noItem).id ≠ (l.getD b noItem).id := by
  rw [List.getD_eq_getElem l noItem ha, List.getD_eq_getElem l noItem hb]
  intro he
  have ha' : a < (l.map (·.id)).length := by simpa using ha
  have hb' : b < (l.map (·.id)).length := by simpa using hb
  have hm : (l.map (·.id)).get ⟨a, ha'⟩ = (l.map (·.id)).get ⟨b, hb'⟩ := by
    simpa using he
  have hfin := (List.Nodup.get_inj_iff hnd).mp hm
  exact hab (by simpa using hfin)

/-- Any entry of the list at a position below its length is non-default. -/
theorem getD_isBumper_false (videos : List Item)
    (hv : ∀ v ∈ videos, v.isBumper = false) (j : Nat) :
    (videos.getD j noItem).isBumper = false := by
  rcases Nat.lt_or_ge j videos.length with h | h
  · exact hv _ (getD_mem_of_lt videos j noItem h)
  · rw [List.getD_eq_default videos noItem h]; rfl

/-- The inserted bumpers of the positional cached-API loop form a chain of
pairwise-adjacent distinct identifiers, and the first one is
`sb[k % sb.length]`. -/
theorem ibGo_filter_chain (sb : List Item) (hn : 2 ≤ sb.length)
    (hnd : (sb.map (·.id)).Nodup)
    (hbs : ∀ b ∈ sb, b.isBumper = true) :
    ∀ (videos : List Item) (i k : Nat), (∀ v ∈ videos, v.isBumper = false) →
      (((ibGo sb videos i k).filter (·.isBumper)).Chain'
          (fun a b => a.id ≠ b.id) ∧
        ∀ e, ((ibGo sb videos i k).filter (·.isBumper)).head? = some e →
          e = sb.getD (k % sb.length) noItem) := by
  intro videos
  have hsbne : sb ≠ [] := by
    intro h0; rw [h0] at hn; simp at hn
  induction videos with
  | nil => intro i k _; simp [ibGo]
  | cons v rest ih =>
    intro i k hv
    have hvf : v.isBumper = false := hv v (by simp)
    have hrest : ∀ x ∈ rest, x.isBumper = false := fun x hx => hv x (by simp [hx])
    by_cases hc : i = 1 ∨ i = 5 ∨ i = 9 ∨ i = 11
    · have hB : (sb.getD (k % sb.length) noItem).isBumper = true :=
        hbs _ (mod_mem sb k noItem hsbne)
      have hBn : ((sb[k % sb.length]?).getD noItem).isBumper = true := by
        simpa [List.getD_eq_getElem?_getD] using hB
      obtain ⟨ihc, ihh⟩ := ih (i + 1) (k + 1) hrest
      have hfil : (ibGo sb (v :: rest) i k).filter (·.isBumper) =
          sb.getD (k % sb.length) noItem ::
            (ibGo sb rest (i + 1) (k + 1)).filter (·.isBumper) := by
        simp [ibGo, if_pos hc, List.filter_cons, hvf, hB, hBn]
      rw [hfil]
      constructor
      · rw [List.chain'_cons']
        refine ⟨?_, ihc⟩
        intro e he
        rw [ihh e he]
        exact nodup_ids_getD_ne sb hnd _ _ (Nat.mod_lt _ (by omega))
          (Nat.mod_lt _ (by omega)) (mod_succ_ne k sb.length hn)
      · intro e he
        simpa using he.symm
    · obtain ⟨ihc, ihh⟩ := ih (i + 1) k hrest
      have hfil : (ibGo sb (v :: rest) i k).filter (·.isBumper) =
          (ibGo sb rest (i + 1) k).filter (·.isBumper) := by
        simp [ibGo, if_neg hc, List.filter_cons, hvf]
      rw [hfil]
      exact ⟨ihc, ihh⟩

/-- The inserted bumpers of the positional store-path loop form a chain of
pairwise-adjacent distinct identifiers; the first one differs from the
bumper recorded by `lastBumperIndex`. -/
theorem ibdbGo_filter_chain (pick : Option Nat → Nat) (bumpers : List Item)
    (hn : 2 ≤ bumpers.length)
    (hnd : (bumpers.map (·.id)).Nodup)
    (hbs : ∀ b ∈ bumpers, b.isBumper = true)
    (hpick : ∀ last, pick last < bumpers.length ∧
      ∀ j, last = some j → pick last ≠ j) :
    ∀ (videos : List Item) (i : Nat) (last : Option Nat),
      (∀ v ∈ videos, v.isBumper = false) →
      (∀ j, last = some j → j < bumpers.length) →
      (((ibdbGo pick bumpers videos i last).filter (·.isBumper)).Chain'
          (fun a b => a.id ≠ b.id) ∧
        ∀ e, ((ibdbGo pick bumpers videos i last).filter (·.isBumper)).head?
            = some e →
          ∀ j, last = some j → e.id ≠ (bumpers.getD j noItem).id) := by
  intro videos
  have hne1 : bumpers.length ≠ 1 := by omega
  induction videos with
  | nil => intro i last _ _; simp [ibdbGo]
  | cons v rest ih =>
    intro i last hv hvalid
    have hvf : v.isBumper = false := hv v (by simp)
    have hrest : ∀ x ∈ rest, x.isBumper = false := fun x hx => hv x (by simp [hx])
    by_cases hc : i = 1 ∨ i = 5 ∨ i = 9 ∨ i = 11
    · have hgrb : getRandomBumper pick bumpers last =
          (bumpers.getD (pick last) noItem, some (pick last)) := by
        simp [getRandomBumper, hne1]
      have hB : (bumpers.getD (pick last) noItem).isBumper = true :=
        hbs _ (getD_mem_of_lt bumpers _ noItem (hpick last).1)
      have hBn : ((bumpers[pick last]?).getD noItem).isBumper = true := by
        simpa [List.getD_eq_getElem?_getD] using hB
      obtain ⟨ihc, ihh⟩ := ih (i + 1) (some (pick last)) hrest
        (by intro j hj; cases hj; exact (hpick last).1)
      have hfil : (ibdbGo pick bumpers (v :: rest) i last).filter (·.isBumper) =
          bumpers.getD (pick last) noItem ::
            (ibdbGo pick bumpers rest (i + 1) (some (pick last))).filter
              (·.isBumper) := by
        simp only [ibdbGo, if_pos hc, hgrb]
        simp [List.filter_cons, hvf, hB, hBn]
      rw [hfil]
      constructor
      · rw [List.chain'_cons']
        refine ⟨?_, ihc⟩
        intro e he
        exact (ihh e he (pick last) rfl).symm
      · intro e he j hj
        have hej : e = bumpers.getD (pick last) noItem := by simpa using he.symm
        rw [hej]
        exact nodup_ids_getD_ne bumpers hnd _ _ (hpick last).1 (hvalid j hj)
          ((hpick last).2 j hj)
    · obtain ⟨ihc, ihh⟩ := ih (i + 1) last hrest hvalid
      have hfil : (ibdbGo pick bumpers (v :: rest) i last).filter (·.isBumper) =
          (ibdbGo pick bumpers rest (i + 1) last).filter (·.isBumper) := by
        simp [ibdbGo, if_neg hc, List.filter_cons, hvf]
      rw [hfil]
      exact ⟨ihc, ihh⟩

/-- C7 counterexample: the source never deduplicates the bumper pool (the
bumper playlists are flattened as fetched), and consecutive insertions only
guarantee distinct pool *positions*; a pool of two entries sharing one
identifier therefore yields consecutive inserted bumpers with the same
identifier, refuting the claim as stated. -/
theorem c7_counterexample :
    2 ≤ ([witBumper, witBumper] : List Item).length ∧
    ¬ (((insertBumpersIntoBlock [witBumper, witBumper] (fun _ => 0) witVideos
          (some .positional)).filter (·.isBumper)).Chain'
        (fun a b => a.id ≠ b.id)) := by
  have hfil : (insertBumpersIntoBlock [witBumper, witBumper] (fun _ => 0)
      witVideos (some .positional)).filter (·.isBumper) =
      [witBumper, witBumper, witBumper, witBumper] := by rfl
  constructor
  · decide
  · intro h
    rw [hfil] at h
    exact (List.chain'_cons.mp h).1 rfl

/-- C7 (amended): when the bumper pool has at least two entries with
pairwise-distinct identifiers, each inserted bumper differs by identifier
from the immediately preceding inserted bumper, for both interleavers and
both patterns; and with an empty pool both interleavers return the input
unchanged. (The source only guarantees distinct pool positions for
consecutive bumpers, so the distinct-identifier hypothesis is needed.) -/
theorem c7_amended_no_immediate_repeat
    (bumpers videos : List Item) (rb : Nat → Nat) (pick : Option Nat → Nat)
    (interval : Option BumperPattern) (pat : BumperPattern)
    (hn : 2 ≤ bumpers.length)
    (hnd : (bumpers.map (·.id)).Nodup)
    (hv : ∀ v ∈ videos, v.isBumper = false)
    (hb : ∀ b ∈ bumpers, b.isBumper = true)
    (hpick : ∀ last, pick last < bumpers.length ∧
      ∀ j, last = some j → pick last ≠ j) :
    ((insertBumpersIntoBlock bumpers rb videos (some pat)).filter
        (·.isBumper)).Chain' (fun a b => a.id ≠ b.id) ∧
    ((insertBumpersIntoBlockFromDB pick videos bumpers pat).filter
        (·.isBumper)).Chain' (fun a b => a.id ≠ b.id) ∧
    insertBumpersIntoBlock [] rb videos interval = videos ∧
    insertBumpersIntoBlockFromDB pick videos [] pat = videos := by
  have hne : bumpers ≠ [] := by intro h0; rw [h0] at hn; simp at hn
  have hne1 : bumpers.length ≠ 1 := by omega
  have hsbp := shuffle_perm rb bumpers
  have hsn : 2 ≤ (shuffle rb bumpers).length := by rw [shuffle_length]; exact hn
  have hsnd : ((shuffle rb bumpers).map (·.id)).Nodup :=
    (hsbp.map (·.id)).nodup_iff.mpr hnd
  have hsbs : ∀ b ∈ shuffle rb bumpers, b.isBumper = true :=
    fun b hbm => hb b (hsbp.mem_iff.mp hbm)
  have hguard : ¬(bumpers.isEmpty = true ∨
      (some pat : Option BumperPattern) = none) := by
    simp [List.isEmpty_iff, hne]
  refine ⟨?_, ?_, by simp [insertBumpersIntoBlock],
    by simp [insertBumpersIntoBlockFromDB]⟩
  · cases pat with
    | positional =>
      have hval : insertBumpersIntoBlock bumpers rb videos (some .positional) =
          ibGo (shuffle rb bumpers) videos 0 0 := by
        rw [insertBumpersIntoBlock, if_neg hguard]
      rw [hval]
      exact (ibGo_filter_chain (shuffle rb bumpers) hsn hsnd hsbs videos 0 0 hv).1
    | shows =>
      have hval : insertBumpersIntoBlock bumpers rb videos (some .shows) =
          [videos.getD 0 noItem,
           (shuffle rb bumpers).getD (0 % (shuffle rb bumpers).length) noItem,
           videos.getD 1 noItem, videos.getD 2 noItem,
           (shuffle rb bumpers).getD (1 % (shuffle rb bumpers).length) noItem] := by
        rw [insertBumpersIntoBlock, if_neg hguard]
      rw [hval]
      have hsbnem : shuffle rb bumpers ≠ [] := by
        intro h0; rw [h0] at hsn; simp at hsn
      have hb0 : ((shuffle rb bumpers).getD (0 % (shuffle rb bumpers).length)
          noItem).isBumper = true :=
        hsbs _ (mod_mem _ 0 noItem hsbnem)
      have hb1 : ((shuffle rb bumpers).getD (1 % (shuffle rb bumpers).length)
          noItem).isBumper = true :=
        hsbs _ (mod_mem _ 1 noItem hsbnem)
      have hb0n : (((shuffle rb bumpers)[0]?).getD noItem).isBumper = true := by
        simpa [List.getD_eq_getElem?_getD] using hb0
      have hb1n : (((shuffle rb bumpers)[1 % (shuffle rb bumpers).length]?).getD
          noItem).isBumper = true := by
        simpa [List.getD_eq_getElem?_getD] using hb1
      have hv0n : ((videos[0]?).getD noItem).isBumper = false := by
        simpa [List.getD_eq_getElem?_getD] using getD_isBumper_false videos hv 0
      have hv1n : ((videos[1]?).getD noItem).isBumper = false := by
        simpa [List.getD_eq_getElem?_getD] using getD_isBumper_false videos hv 1
      have hv2n : ((videos[2]?).getD noItem).isBumper = false := by
        simpa [List.getD_eq_getElem?_getD] using getD_isBumper_false videos hv 2
      have hfil : ([videos.getD 0 noItem,
          (shuffle rb bumpers).getD (0 % (shuffle rb bumpers).length) noItem,
          videos.getD 1 noItem, videos.getD 2 noItem,
          (shuffle rb bumpers).getD (1 % (shuffle rb bumpers).length) noItem].filter
            (·.isBumper)) =
          [(shuffle rb bumpers).getD (0 % (shuffle rb bumpers).length) noItem,
           (shuffle rb bumpers).getD (1 % (shuffle rb bumpers).length) noItem] := by
        simp [List.filter_cons, hv0n, hv1n, hv2n, hb0n, hb1n]
      rw [hfil]
      refine List.chain'_cons.mpr ⟨?_, by simp⟩
      have e0 : 0 % (shuffle rb bumpers).length = 0 := Nat.zero_mod _
      have e1 : 1 % (shuffle rb bumpers).length = 1 := Nat.mod_eq_of_lt (by omega)
      rw [e0, e1]
      exact nodup_ids_getD_ne _ hsnd 0 1 (by omega) (by omega) (by omega)
  · cases pat with
    | positional =>
      have hval : insertBumpersIntoBlockFromDB pick videos bumpers .positional =
          ibdbGo pick bumpers videos 0 none := by
        rw [insertBumpersIntoBlockFromDB,
          if_neg (by simp [List.isEmpty_iff, hne] : ¬bumpers.isEmpty = true)]
      rw [hval]
      exact (ibdbGo_filter_chain pick bumpers hn hnd hb hpick videos 0 none hv
        (by rintro j ⟨⟩)).1
    | shows =>
      have hval : insertBumpersIntoBlockFromDB pick videos bumpers .shows =
          [videos.getD 0 noItem, bumpers.getD (pick none) noItem,
           videos.getD 1 noItem, videos.getD 2 noItem,
           bumpers.getD (pick (some (pick none))) noItem] := by
        rw [insertBumpersIntoBlockFromDB,
          if_neg (by simp [List.isEmpty_iff, hne] : ¬bumpers.isEmpty = true)]
        simp [getRandomBumper, hne1]
      rw [hval]
      have hb0 : (bumpers.getD (pick none) noItem).isBumper = true :=
        hb _ (getD_mem_of_lt bumpers _ noItem (hpick none).1)
      have hb1 : (bumpers.getD (pick (some (pick none))) noItem).isBumper = true :=
        hb _ (getD_mem_of_lt bumpers _ noItem (hpick (some (pick none))).1)
      have hb0n : ((bumpers[pick none]?).getD noItem).isBumper = true := by
        simpa [List.getD_eq_getElem?_getD] using hb0
      have hb1n : ((bumpers[pick (some (pick none))]?).getD noItem).isBumper
          = true := by
        simpa [List.getD_eq_getElem?_getD] using hb1
      have hv0n : ((videos[0]?).getD noItem).isBumper = false := by
        simpa [List.getD_eq_getElem?_getD] using getD_isBumper_false videos hv 0
      have hv1n : ((videos[1]?).getD noItem).isBumper = false := by
        simpa [List.getD_eq_getElem?_getD] using getD_isBumper_false videos hv 1
      have hv2n : ((videos[2]?).getD noItem).isBumper = false := by
        simpa [List.getD_eq_getElem?_getD] using getD_isBumper_false videos hv 2
      have hfil : ([videos.getD 0 noItem, bumpers.getD (pick none) noItem,
          videos.getD 1 noItem, videos.getD 2 noItem,
          bumpers.getD (pick (some (pick none))) noItem].filter (·.isBumper)) =
          [bumpers.getD (pick none) noItem,
           bumpers.getD (pick (some (pick none))) noItem] := by
        simp [List.filter_cons, hv0n, hv1n, hv2n, hb0n, hb1n]
      rw [hfil]
      refine List.chain'_cons.mpr ⟨?_, by simp⟩
      exact nodup_ids_getD_ne bumpers hnd _ _ (hpick none).1
        (hpick (some (pick none))).1
        (((hpick (some (pick none))).2 (pick none) rfl).symm)

/-- The accepted-index oracle used by the C7 witness: avoid the previous
index by picking the other one of a two-bumper pool. -/
def wpick : Option Nat → Nat := fun last => if last = some 0 then 1 else 0

theorem wpick_contract : ∀ last, wpick last < ([witBumper, witBumper2] :
    List Item).length ∧ ∀ j, last = some j → wpick last ≠ j := by
  intro last
  constructor
  · cases last with
    | none => decide
    | some j =>
      by_cases hj : j = 0
      · subst hj; decide
      · simp [wpick, hj]
  · intro j h
    subst h
    by_cases hj : j = 0
    · subst hj; decide
    · simp [wpick, hj]
      omega

/-- C7 witness: the amended theorem at a two-bumper pool with distinct
identifiers, 12 concrete items and a concrete accepted-index oracle. -/
theorem c7_amended_no_immediate_repeat_witness :
    ((insertBumpersIntoBlock [witBumper, witBumper2] (fun _ => 0) witVideos
        (some .positional)).filter (·.isBumper)).Chain'
      (fun a b => a.id ≠ b.id) ∧
    ((insertBumpersIntoBlockFromDB wpick witVideos [witBumper, witBumper2]
        .positional).filter (·.isBumper)).Chain' (fun a b => a.id ≠ b.id) ∧
    insertBumpersIntoBlock [] (fun _ => 0) witVideos (some .positional)
      = witVideos ∧
    insertBumpersIntoBlockFromDB wpick witVideos [] .positional = witVideos :=
  c7_amended_no_immediate_repeat [witBumper, witBumper2] witVideos (fun _ => 0)
    wpick (some .positional) .positional (by decide) (by decide) (by decide)
    (by decide) wpick_contract

/-! ## Availability tracker (`markVideoUnavailable`, store path)

```js
async function markVideoUnavailable(youtubeVideoId, errorCode = null) {
  ... if (!video.last_unavailable_at ||
           new Date(video.last_unavailable_at) < thirtyDaysAgo) newCount = 1;
      else newCount = (video.unavailable_count || 0) + 1;
      if (newCount >= 50) shouldFlag = true; ...
}
```
Timestamps are milliseconds since the epoch (`Date.now()`); the reset
window is 30 days and the auto-flag threshold 50 reports, as in the
source (`unavailable_count` is a non-null `INT DEFAULT 0` column, so the
JavaScript `|| 0` is the identity and the counter is a `Nat`). -/

/-- The columns of a `videos` row that `markVideoUnavailable` reads and
writes. -/
structure VideoTrack where
  unavailableCount : Nat := 0
  lastUnavailableAt : Option Int := none
  isFlagged : Bool := false
  flagReason : Option String := none
deriving DecidableEq, Repr

/-- 30 days in milliseconds. -/
def RESET_WINDOW_MS : Int := 30 * 24 * 60 * 60 * 1000

/-- The auto-flag threshold (50 reports). -/
def FLAG_THRESHOLD : Nat := 50

/-- The reason string recorded when auto-flagging, embedding the updated
counter and the optional upstream error code. -/
def autoFlagReason (newCount : Nat) (errorCode : Option Nat) : String :=
  match errorCode with
  | some c => s!"Auto-flagged: {newCount} unavailable reports (Error: {c})"
  | none => s!"Auto-flagged: {newCount} unavailable reports"

/-- `markVideoUnavailable(youtubeVideoId, errorCode)`: reset the counter
to 1 when there is no prior report or the prior one is older than the
30-day window, increment it otherwise; always stamp the report time; when
`newCount >= 50` set `is_flagged` and record the reason (the non-flagging
update leaves `is_flagged`/`flag_reason` untouched). -/
def markVideoUnavailable (now : Int) (v : VideoTrack)
    (errorCode : Option Nat) : VideoTrack :=
  let thirtyDaysAgo := now - RESET_WINDOW_MS
  let reset : Bool := match v.lastUnavailableAt with
    | none => true
    | some t => decide (t < thirtyDaysAgo)
  let newCount := if reset then 1 else v.unavailableCount + 1
  if FLAG_THRESHOLD ≤ newCount then
    { unavailableCount := newCount, lastUnavailableAt := some now,
      isFlagged := true,
      flagReason := some (autoFlagReason newCount errorCode) }
  else
    { v with unavailableCount := newCount, lastUnavailableAt := some now }

/-- C3: a failure report sets the counter to 1 when there is no prior
report or the prior report is older than the 30-day reset window,
increments it by one otherwise, and always records the report timestamp
as the last-report time. -/
theorem c3_tracker_counter_update (now : Int) (v : VideoTrack)
    (errorCode : Option Nat) :
    (markVideoUnavailable now v errorCode).lastUnavailableAt = some now ∧
    ((v.lastUnavailableAt = none ∨
        (∃ t, v.lastUnavailableAt = some t ∧ t < now - RESET_WINDOW_MS)) →
      (markVideoUnavailable now v errorCode).unavailableCount = 1) ∧
    (∀ t, v.lastUnavailableAt = some t → ¬(t < now - RESET_WINDOW_MS) →
      (markVideoUnavailable now v errorCode).unavailableCount
        = v.unavailableCount + 1) := by
  refine ⟨?_, ?_, ?_⟩
  · simp only [markVideoUnavailable]
    split_ifs <;> rfl
  · intro hdisj
    rcases hdisj with h | ⟨t, ht, hlt⟩
    · simp [markVideoUnavailable, h, FLAG_THRESHOLD]
    · have hd : decide (t < now - RESET_WINDOW_MS) = true := by
        simpa using hlt
      simp [markVideoUnavailable, ht, hd, FLAG_THRESHOLD]
  · intro t ht hnlt
    have hd : decide (t < now - RESET_WINDOW_MS) = false := by
      simpa using hnlt
    simp only [markVideoUnavailable, ht, hd]
    split_ifs <;> simp_all

/-- A row already suppressed at the threshold: 50 in-window reports,
reason embedding 50. -/
def c9Video : VideoTrack :=
  { unavailableCount := 50, lastUnavailableAt := some 0, isFlagged := true,
    flagReason := some "Auto-flagged: 50 unavailable reports" }

/-- C9 counterexample: an item already suppressed at the threshold (50
reports, reason embedding 50) is re-suppressed by the next in-window
report, which overwrites the reason with one embedding 51 — so the
suppressed state is not set exactly once with a stable reason. -/
theorem c9_counterexample :
    (markVideoUnavailable 1000 c9Video none).isFlagged = true ∧
    (markVideoUnavailable 1000 c9Video none).unavailableCount = 51 ∧
    (markVideoUnavailable 1000 c9Video none).flagReason =
      some "Auto-flagged: 51 unavailable reports" ∧
    (markVideoUnavailable 1000 c9Video none).flagReason ≠ c9Video.flagReason :=
  ⟨by decide, by decide, by decide, by decide⟩

/-- C9 (amended): every report whose updated counter reaches or exceeds
the threshold applies the suppressed state and records a reason embedding
that updated counter and the optional error code; reports beyond the
threshold therefore re-suppress and overwrite the recorded reason rather
than suppressing exactly once. -/
theorem c9_amended_reflag_each_report (now : Int) (v : VideoTrack)
    (errorCode : Option Nat)
    (h : FLAG_THRESHOLD ≤ (markVideoUnavailable now v errorCode).unavailableCount) :
    (markVideoUnavailable now v errorCode).isFlagged = true ∧
    (markVideoUnavailable now v errorCode).flagReason =
      some (autoFlagReason
        (markVideoUnavailable now v errorCode).unavailableCount errorCode) := by
  simp only [markVideoUnavailable] at h ⊢
  split_ifs at h ⊢ <;> simp_all

/-- C9 witness: the amended theorem at the counterexample's input (the
51st in-window report re-flags with the reason embedding 51). -/
theorem c9_amended_reflag_each_report_witness :
    (markVideoUnavailable 1000 c9Video none).isFlagged = true ∧
    (markVideoUnavailable 1000 c9Video none).flagReason =
      some (autoFlagReason
        (markVideoUnavailable 1000 c9Video none).unavailableCount none) :=
  c9_amended_reflag_each_report 1000 c9Video none (by decide)

/-! ## The playlist cache (`getPlaylistVideos`)

```js
const cached = playlistCache.get(playlistId);
if (cached && (now - cached.timestamp) < CACHE_DURATION) return cached.videos;
try { const videos = await Promise.race([fetchPlaylistItems(...), timeoutPromise]);
      playlistCache.set(playlistId, { videos, timestamp: now }); return videos; }
catch (error) { playlistCache.set(playlistId, { videos: [], timestamp: now });
                return []; }
```
The raced fetch is an oracle `Except String (List Item)` (a timeout is an
`error`); the third component of the result records whether the upstream
fetch ran. Timestamps are naturals (`Date.now()`), `now - ts` truncated
subtraction, which agrees with the JavaScript comparison for monotone
clocks. The `Map` is an association list where `set` prepends and `get`
takes the first match. -/

/-- One entry of the playlist cache: `{videos, timestamp}`. -/
structure CacheEntry where
  videos : List Item
  timestamp : Nat
deriving DecidableEq, Repr

/-- The playlist cache, keyed by playlist id. -/
def PlaylistCache := List (String × CacheEntry)

/-- `playlistCache.get(playlistId)`. -/
def cacheGet (c : PlaylistCache) (pid : String) : Option CacheEntry :=
  (c.find? (fun e => e.1 == pid)).map (·.2)

/-- `playlistCache.set(playlistId, entry)` (last writer wins). -/
def cacheSet (c : PlaylistCache) (pid : String) (entry : CacheEntry) :
    PlaylistCache :=
  (pid, entry) :: c

/-- The cache TTL (24 hours in milliseconds). -/
def CACHE_DURATION : Nat := 24 * 60 * 60 * 1000

/-- The fetch-and-cache part of `getPlaylistVideos` (the `try`/`catch`):
a failure caches and returns the empty list instead of propagating. -/
def fetchAndCache (cache : PlaylistCache) (now : Nat)
    (fetchResult : Except String (List Item)) (pid : String) :
    List Item × PlaylistCache × Bool :=
  match fetchResult with
  | .ok videos => (videos, cacheSet cache pid ⟨videos, now⟩, true)
  | .error _ => ([], cacheSet cache pid ⟨[], now⟩, true)

/-- `getPlaylistVideos(playlistId, …)`: serve a valid cache entry, else
fetch (the oracle) and cache the result — empty on failure. -/
def getPlaylistVideos (cache : PlaylistCache) (now : Nat)
    (fetchResult : Except String (List Item)) (pid : String) :
    List Item × PlaylistCache × Bool :=
  match cacheGet cache pid with
  | some entry =>
      if now - entry.timestamp < CACHE_DURATION then (entry.videos, cache, false)
      else fetchAndCache cache now fetchResult pid
  | none => fetchAndCache cache now fetchResult pid

/-- C8: on a cache miss (or stale entry), a failed fetch populates the
cache with an empty list stamped at the current time and returns the
empty list instead of propagating the error; every later access within
the TTL window returns the cached empty result without an upstream
call, whatever the fetch oracle would then produce. -/
theorem c8_failed_fetch_cached_empty (cache : PlaylistCache) (now : Nat)
    (pid : String) (err : String)
    (hmiss : cacheGet cache pid = none ∨
      ∃ entry, cacheGet cache pid = some entry ∧
        ¬(now - entry.timestamp < CACHE_DURATION)) :
    getPlaylistVideos cache now (.error err) pid =
      ([], cacheSet cache pid ⟨[], now⟩, true) ∧
    cacheGet (cacheSet cache pid ⟨[], now⟩) pid = some ⟨[], now⟩ ∧
    ∀ (later : Nat) (fetchNext : Except String (List Item)),
      later - now < CACHE_DURATION →
      getPlaylistVideos (cacheSet cache pid ⟨[], now⟩) later fetchNext pid =
        ([], cacheSet cache pid ⟨[], now⟩, false) := by
  have hget : cacheGet (cacheSet cache pid ⟨[], now⟩) pid = some ⟨[], now⟩ := by
    simp [cacheGet, cacheSet]
  refine ⟨?_, hget, ?_⟩
  · rcases hmiss with h | ⟨entry, hentry, hstale⟩
    · simp [getPlaylistVideos, fetchAndCache, h]
    · simp [getPlaylistVideos, fetchAndCache, hentry, if_neg hstale]
  · intro later fetchNext httl
    simp [getPlaylistVideos, hget, if_pos httl]

/-- C8 witness: on the empty cache at time 0 a failed fetch caches the
empty entry, and an access one millisecond later serves it from cache. -/
theorem c8_failed_fetch_cached_empty_witness :
    getPlaylistVideos [] 0 (.error "timeout") "p" =
      ([], cacheSet [] "p" ⟨[], 0⟩, true) ∧
    cacheGet (cacheSet [] "p" ⟨[], 0⟩) "p" = some ⟨[], 0⟩ ∧
    ∀ (later : Nat) (fetchNext : Except String (List Item)),
      later - 0 < CACHE_DURATION →
      getPlaylistVideos (cacheSet [] "p" ⟨[], 0⟩) later fetchNext "p" =
        ([], cacheSet [] "p" ⟨[], 0⟩, false) :=
  c8_failed_fetch_cached_empty [] 0 "p" "timeout" (Or.inl rfl)

/-! ## Single-source block construction (`createProgrammingBlock`)

The fill loop
```js
while (blockVideos.length < blockSize) {
  const needed = blockSize - blockVideos.length;
  blockVideos = blockVideos.concat(availableVideos.slice(0, needed));
}
```
is modelled with an explicit iteration budget: each `fillLoopFuel` step
is one iteration of the source's `while` loop. When `availableVideos` is
non-empty, `blockSize` iterations always reach the exit condition
(`fillLoopFuel_length`), so the embedding runs the loop with that budget;
when `availableVideos` is empty the loop makes no progress for any budget
(`c10_fill_loop_diverges_on_empty`), i.e. the source's unguarded `while`
never exits. -/

/-- One `while`-iteration per unit of fuel. -/
def fillLoopFuel : Nat → Nat → List Item → List Item → List Item
  | 0, _, _, block => block
  | fuel + 1, size, avail, block =>
    if block.length < size then
      fillLoopFuel fuel size avail (block ++ avail.take (size - block.length))
    else block

/-- C10 (code bug): with an empty available list — exactly what a failed
fetch caches — the fill loop of `createProgrammingBlock` makes no
progress and its exit condition `blockVideos.length < blockSize` stays
true after any number of iterations, so the source's unguarded `while`
loop never terminates. (`getSpecialChannelBlock` and the store path's
custom branch guard the same loop with `length > 0`;
`createProgrammingBlock` does not.) -/
theorem c10_fill_loop_diverges_on_empty :
    ∀ fuel : Nat, fillLoopFuel fuel 12 ([] : List Item) [] = [] ∧
      (fillLoopFuel fuel 12 ([] : List Item) []).length < 12 := by
  have h : ∀ f : Nat, fillLoopFuel f 12 ([] : List Item) [] = [] := by
    intro f
    induction f with
    | zero => rfl
    | succ n ih => simpa [fillLoopFuel] using ih
  intro fuel
  exact ⟨h fuel, by rw [h fuel]; simp⟩

/-- A non-empty available list brings the loop to exactly `size` entries
within `size` iterations. -/
theorem fillLoopFuel_length (size : Nat) (avail : List Item) (hne : avail ≠ []) :
    ∀ (fuel : Nat) (block : List Item), block.length ≤ size →
      size ≤ block.length + fuel →
      (fillLoopFuel fuel size avail block).length = size := by
  have hpos : 0 < avail.length := List.length_pos.mpr hne
  intro fuel
  induction fuel with
  | zero =>
    intro block h1 h2
    simp only [fillLoopFuel]
    omega
  | succ n ih =>
    intro block h1 h2
    by_cases hlt : block.length < size
    · rw [fillLoopFuel, if_pos hlt]
      apply ih
      · simp only [List.length_append, List.length_take]
        omega
      · simp only [List.length_append, List.length_take]
        omega
    · rw [fillLoopFuel, if_neg hlt]
      omega

/-- The loop preserves and extends the cyclic-repetition shape: if the
block so far is a prefix of the cyclic repetition of `avail` and its
length is a multiple of `avail.length` (or the block is already full),
every entry of the final block is `avail[i % avail.length]`. -/
theorem fillLoopFuel_cyclic (size : Nat) (avail : List Item) (hne : avail ≠ []) :
    ∀ (fuel : Nat) (block : List Item),
      (∀ i, i < block.length → block[i]? = avail[i % avail.length]?) →
      (block.length % avail.length = 0 ∨ size ≤ block.length) →
      ∀ i, i < (fillLoopFuel fuel size avail block).length →
        (fillLoopFuel fuel size avail block)[i]? = avail[i % avail.length]? := by
  have hpos : 0 < avail.length := List.length_pos.mpr hne
  intro fuel
  induction fuel with
  | zero =>
    intro block hcyc _ i hi
    simp only [fillLoopFuel] at hi ⊢
    exact hcyc i hi
  | succ n ih =>
    intro block hcyc hph i hi
    by_cases hlt : block.length < size
    · rw [fillLoopFuel, if_pos hlt] at hi ⊢
      have hph0 : block.length % avail.length = 0 := by
        rcases hph with h | h
        · exact h
        · omega
      have hlen2 : (block ++ avail.take (size - block.length)).length
          = block.length + min (size - block.length) avail.length := by
        simp [List.length_append, List.length_take]
      apply ih _ ?_ ?_ i hi
      · intro j hj
        rw [hlen2] at hj
        rcases Nat.lt_or_ge j block.length with hjb | hjb
        · rw [List.getElem?_append_left hjb]
          exact hcyc j hjb
        · rw [List.getElem?_append_right hjb]
          have hjlt : j - block.length < size - block.length := by omega
          have hjalen : j - block.length < avail.length := by omega
          rw [List.getElem?_take_of_lt hjlt]
          have hmod : j % avail.length = j - block.length := by
            conv_lhs => rw [show j = block.length + (j - block.length) by omega]
            rw [Nat.add_mod, hph0, Nat.zero_add, Nat.mod_mod,
              Nat.mod_eq_of_lt hjalen]
          rw [hmod]
      · rw [hlen2]
        rcases Nat.lt_or_ge (size - block.length) avail.length with hc | hc
        · right
          omega
        · left
          rw [Nat.min_eq_right hc, Nat.add_mod, hph0, Nat.mod_self]
          simp
    · rw [fillLoopFuel, if_neg hlt] at hi ⊢
      exact hcyc i hi

/-- A playlist reference as configured or selected:
`{id, label, isCustom}`. -/
structure PlaylistRef where
  id : String
  label : Option String := none
  isCustom : Bool := false
deriving DecidableEq, Repr

/-- The exclusion filter of `createProgrammingBlock` with its reset: if
filtering by the excluded ids empties the list, use all videos. -/
def resetAvailable (allVideos : List Item) (excludeVideoIds : List String) :
    List Item :=
  let availableVideos := allVideos.filter (fun v => ¬ excludeVideoIds.contains v.id)
  if availableVideos.length = 0 then allVideos else availableVideos

/-- Block size per channel: shows 3, every other channel 12. -/
def channelBlockSize (channel : String) : Nat :=
  if channel = "shows" then 3 else 12

/-- Bumper pattern per channel: shows shape for shows, positional
otherwise. -/
def channelPattern (channel : String) : BumperPattern :=
  if channel = "shows" then .shows else .positional

/-- The pre-interleaving block of `createProgrammingBlock`: exclude seen
ids (reset when that empties the list), shuffle, take the block size, and
cyclically repeat to fill (the `while` loop, with its `size`-iteration
budget justified by `fillLoopFuel_length`). -/
def programmingBlockVideos (r : Nat → Nat) (allVideos : List Item)
    (excludeVideoIds : List String) (channel : String) : List Item :=
  let availableVideos := shuffle r (resetAvailable allVideos excludeVideoIds)
  let blockSize := channelBlockSize channel
  fillLoopFuel blockSize blockSize availableVideos (availableVideos.take blockSize)

/-- `createProgrammingBlock(playlistObj, channel, excludeVideoIds)`:
`allVideos` is the `getPlaylistVideos` result for the playlist and
`bumpers` the module-level `bumpersCache`. -/
def createProgrammingBlock (bumpers : List Item) (r rb : Nat → Nat)
    (playlistObj : PlaylistRef) (channel : String) (allVideos : List Item)
    (excludeVideoIds : List String) : Block :=
  { playlistLabel := playlistObj.label,
    playlistId := playlistObj.id,
    items := insertBumpersIntoBlock bumpers rb
      (programmingBlockVideos r allVideos excludeVideoIds channel)
      (some (channelPattern channel)) }

/-- C5: with exactly two available items (after exclusion and reset) and
the requested block size 12, the pre-interleaving block has exactly 12
entries, the two shuffled items repeating cyclically; and whenever at
least one item is available the block always reaches the requested size
(never fewer). -/
theorem c5_single_source_cyclic_fill (r : Nat → Nat) (allVideos : List Item)
    (excludeVideoIds : List String) (channel : String)
    (hch : channel ≠ "shows") :
    ((resetAvailable allVideos excludeVideoIds).length = 2 →
      (programmingBlockVideos r allVideos excludeVideoIds channel).length = 12 ∧
      (∀ i, i < 12 →
        (programmingBlockVideos r allVideos excludeVideoIds channel)[i]? =
          (shuffle r (resetAvailable allVideos excludeVideoIds))[i % 2]?) ∧
      (shuffle r (resetAvailable allVideos excludeVideoIds)).Perm
        (resetAvailable allVideos excludeVideoIds)) ∧
    (resetAvailable allVideos excludeVideoIds ≠ [] →
      channelBlockSize channel ≤
        (programmingBlockVideos r allVideos excludeVideoIds channel).length) := by
  have hbs : channelBlockSize channel = 12 := by
    simp [channelBlockSize, hch]
  constructor
  · intro h2
    have hs2 : (shuffle r (resetAvailable allVideos excludeVideoIds)).length = 2 := by
      rw [shuffle_length]; exact h2
    have hsne : shuffle r (resetAvailable allVideos excludeVideoIds) ≠ [] := by
      intro h0; rw [h0] at hs2; simp at hs2
    have hlen : (programmingBlockVideos r allVideos excludeVideoIds channel).length
        = 12 := by
      rw [programmingBlockVideos, hbs]
      apply fillLoopFuel_length _ _ hsne
      · simp
      · simp only [List.length_take, hs2]
        omega
    refine ⟨hlen, ?_, shuffle_perm r _⟩
    have hfill_eq : fillLoopFuel 12 12
        (shuffle r (resetAvailable allVideos excludeVideoIds))
        ((shuffle r (resetAvailable allVideos excludeVideoIds)).take 12) =
        programmingBlockVideos r allVideos excludeVideoIds channel := by
      rw [programmingBlockVideos, hbs]
    have hcyc0 : ∀ j,
        j < ((shuffle r (resetAvailable allVideos excludeVideoIds)).take 12).length →
        ((shuffle r (resetAvailable allVideos excludeVideoIds)).take 12)[j]? =
          (shuffle r (resetAvailable allVideos excludeVideoIds))[j %
            (shuffle r (resetAvailable allVideos excludeVideoIds)).length]? := by
      intro j hj
      rw [List.length_take, hs2] at hj
      have hj2 : j < 2 := by omega
      rw [List.getElem?_take_of_lt (show j < 12 by omega), hs2,
        Nat.mod_eq_of_lt hj2]
    have hph :
        ((shuffle r (resetAvailable allVideos excludeVideoIds)).take 12).length %
          (shuffle r (resetAvailable allVideos excludeVideoIds)).length = 0 ∨
        12 ≤ ((shuffle r (resetAvailable allVideos
          excludeVideoIds)).take 12).length := by
      left
      rw [List.length_take, hs2]
      decide
    have hcyc := fillLoopFuel_cyclic 12 _ hsne 12 _ hcyc0 hph
    intro i hi
    have hi' : i < (fillLoopFuel 12 12
        (shuffle r (resetAvailable allVideos excludeVideoIds))
        ((shuffle r (resetAvailable allVideos excludeVideoIds)).take 12)).length := by
      rw [hfill_eq, hlen]
      exact hi
    have hx := hcyc i hi'
    rw [hfill_eq, hs2] at hx
    exact hx
  · intro hne
    have hsne : shuffle r (resetAvailable allVideos excludeVideoIds) ≠ [] := by
      intro h0
      have := shuffle_length r (resetAvailable allVideos excludeVideoIds)
      rw [h0] at this
      exact hne (List.eq_nil_of_length_eq_zero this.symm)
    rw [programmingBlockVideos]
    rw [fillLoopFuel_length (channelBlockSize channel) _ hsne
      (channelBlockSize channel) _ (by simp)
      (by simp only [List.length_take]; omega)]

/-- Two concrete items for the C5 witness. -/
def c5Videos : List Item := [{ id := "x1" }, { id := "x2" }]

/-- C5 witness: the theorem at a concrete two-item playlist on a music
channel. -/
theorem c5_single_source_cyclic_fill_witness :
    ((resetAvailable c5Videos []).length = 2 →
      (programmingBlockVideos (fun _ => 0) c5Videos [] "rock").length = 12 ∧
      (∀ i, i < 12 →
        (programmingBlockVideos (fun _ => 0) c5Videos [] "rock")[i]? =
          (shuffle (fun _ => 0) (resetAvailable c5Videos []))[i % 2]?) ∧
      (shuffle (fun _ => 0) (resetAvailable c5Videos [])).Perm
        (resetAvailable c5Videos [])) ∧
    (resetAvailable c5Videos [] ≠ [] →
      channelBlockSize "rock" ≤
        (programmingBlockVideos (fun _ => 0) c5Videos [] "rock").length) :=
  c5_single_source_cyclic_fill (fun _ => 0) c5Videos [] "rock" (by decide)

/-! ## Multi-source blend (`mixVideos`)

The round-robin of the source advances each custom playlist's index once
per `while`-round, so round `r` contributes `p[r]` for every playlist `p`
with `r < p.length`; the `while` loop stops when a round contributes
nothing or the pool has reached the cap (checked before each round). One
unit of fuel is one `while`-round. -/

/-- `dedupe(videos)`: keep the first occurrence of each id. -/
def dedupeGo (seen : List String) : List Item → List Item
  | [] => []
  | v :: rest =>
    if seen.contains v.id then dedupeGo seen rest
    else v :: dedupeGo (v.id :: seen) rest

/-- `dedupe(videos)` of the source. -/
def dedupe (videos : List Item) : List Item := dedupeGo [] videos

/-- One `while`-round of the round-robin per unit of fuel; `r` is the
per-playlist index, `acc` the pool built so far. -/
def rrGo (playlists : List (List Item)) (cap : Nat) :
    Nat → Nat → List Item → List Item
  | 0, _, acc => acc
  | fuel + 1, r, acc =>
    if acc.length < cap then
      let round := playlists.filterMap (fun p => p[r]?)
      if round.isEmpty then acc
      else rrGo playlists cap fuel (r + 1) (acc ++ round)
    else acc

/-- The round-robin custom pool, capped (`weightedCustom`); the fuel
bound covers every reachable round. -/
def roundRobinPool (playlists : List (List Item)) (cap : Nat) : List Item :=
  rrGo playlists cap (cap + (playlists.map List.length).foldr max 0 + 1) 0 []

/-- The custom pool of `mixVideos`: drop empty playlists, shuffle each,
round-robin capped at 100. -/
def mixCustomPool (rs : Nat → Nat → Nat)
    (customPlaylistResults : List (List Item)) : List Item :=
  roundRobinPool
    ((customPlaylistResults.filter (fun arr => !arr.isEmpty)).enum.map
      (fun ie => shuffle (rs ie.1) ie.2)) 100

/-- The alternating interleave of step 6 (`custom, official, …`; the
leftover of the longer list is appended in order). -/
def altInterleave : List Item → List Item → List Item
  | x :: xs, y :: ys => x :: y :: altInterleave xs ys
  | [], ys => ys
  | xs, [] => xs

/-- `mixVideos(customPlaylistResults, officialVideos)`. -/
def mixVideos (rAll : Nat → Nat) (rs : Nat → Nat → Nat)
    (customPlaylistResults : List (List Item)) (officialVideos : List Item) :
    List Item :=
  if customPlaylistResults.isEmpty then officialVideos
  else if officialVideos.isEmpty then
    shuffle rAll (dedupe customPlaylistResults.flatten)
  else if ((customPlaylistResults.filter (fun arr => !arr.isEmpty)).enum.map
      (fun ie => shuffle (rs ie.1) ie.2)).isEmpty then officialVideos
  else
    let weightedCustom := mixCustomPool rs customPlaylistResults
    let customIds := weightedCustom.map (·.id)
    let officialIds := officialVideos.map (·.id)
    let uniqueCustom := weightedCustom.filter (fun v => !officialIds.contains v.id)
    let uniqueOfficial := officialVideos.filter (fun v => !customIds.contains v.id)
    let maxPerSource := min uniqueCustom.length uniqueOfficial.length
    altInterleave (uniqueCustom.take maxPerSource)
      (uniqueOfficial.take maxPerSource)

theorem altInterleave_length :
    ∀ xs ys : List Item, (altInterleave xs ys).length = xs.length + ys.length := by
  intro xs
  induction xs with
  | nil => intro ys; cases ys <;> simp [altInterleave]
  | cons x xs ih =>
    intro ys
    cases ys with
    | nil => simp [altInterleave]
    | cons y ys => simp [altInterleave, ih ys]; omega

theorem altInterleave_get :
    ∀ xs ys : List Item, xs.length = ys.length →
      ∀ i, i < xs.length →
        (altInterleave xs ys)[2 * i]? = xs[i]? ∧
        (altInterleave xs ys)[2 * i + 1]? = ys[i]? := by
  intro xs
  induction xs with
  | nil => intro ys _ i hi; simp at hi
  | cons x xs ih =>
    intro ys hlen i hi
    cases ys with
    | nil => simp at hlen
    | cons y ys =>
      cases i with
      | zero => simp [altInterleave]
      | succ n =>
        have h2 : 2 * (n + 1) = (2 * n + 1) + 1 := by omega
        rw [h2]
        simp only [altInterleave, List.getElem?_cons_succ]
        exact ih ys (by simpa using hlen) n (by simpa using hi)

theorem altInterleave_perm :
    ∀ xs ys : List Item, (altInterleave xs ys).Perm (xs ++ ys) := by
  intro xs
  induction xs with
  | nil => intro ys; cases ys <;> simp [altInterleave]
  | cons x xs ih =>
    intro ys
    cases ys with
    | nil => simp [altInterleave]
    | cons y ys =>
      show (x :: y :: altInterleave xs ys).Perm (x :: (xs ++ y :: ys))
      refine List.Perm.cons x ?_
      exact ((ih ys).cons y).trans List.perm_middle.symm

theorem exists_head_len {α : Type _} (l : List α) (n : Nat)
    (h : l.length = n + 1) : ∃ a t, l = a :: t ∧ t.length = n := by
  cases l with
  | nil => simp at h
  | cons a t => exact ⟨a, t, rfl, by simpa using h⟩

/-- C4: blending two custom sources of 5 and 3 items with a 20-item
official pool, all identifiers distinct, gives a round-robin custom pool
of exactly 8 items and a 16-entry output strictly alternating
custom/official with no identifier repeated. -/
theorem c4_two_custom_blend (rAll : Nat → Nat) (rs : Nat → Nat → Nat)
    (c1 c2 official : List Item)
    (h1 : c1.length = 5) (h2 : c2.length = 3) (ho : official.length = 20)
    (hnd : ((c1 ++ c2 ++ official).map (·.id)).Nodup) :
    (mixCustomPool rs [c1, c2]).length = 8 ∧
    (mixVideos rAll rs [c1, c2] official).length = 16 ∧
    (∀ i, i < 8 →
      (∃ x, (mixVideos rAll rs [c1, c2] official)[2 * i]? = some x ∧
        x ∈ c1 ++ c2) ∧
      (∃ y, (mixVideos rAll rs [c1, c2] official)[2 * i + 1]? = some y ∧
        y ∈ official)) ∧
    ((mixVideos rAll rs [c1, c2] official).map (·.id)).Nodup := by
  have e1 : c1.isEmpty = false := by cases c1 <;> simp_all
  have e2 : c2.isEmpty = false := by cases c2 <;> simp_all
  have eo : official.isEmpty = false := by cases official <;> simp_all
  have hfilters : ([c1, c2].filter (fun arr => !arr.isEmpty)) = [c1, c2] := by
    simp [List.filter, e1, e2]
  have hs1 : (shuffle (rs 0) c1).length = 5 := by rw [shuffle_length]; exact h1
  have hs2 : (shuffle (rs 1) c2).length = 3 := by rw [shuffle_length]; exact h2
  obtain ⟨a0, t0, hq0, hl0⟩ := exists_head_len _ 4 hs1
  obtain ⟨a1, t1, hq1, hl1⟩ := exists_head_len _ 3 hl0
  obtain ⟨a2, t2, hq2, hl2⟩ := exists_head_len _ 2 hl1
  obtain ⟨a3, t3, hq3, hl3⟩ := exists_head_len _ 1 hl2
  obtain ⟨a4, t4, hq4, hl4⟩ := exists_head_len _ 0 hl3
  have hS1 : shuffle (rs 0) c1 = [a0, a1, a2, a3, a4] := by
    rw [hq0, hq1, hq2, hq3, hq4, List.length_eq_zero.mp hl4]
  obtain ⟨b0, u0, hr0, hm0⟩ := exists_head_len _ 2 hs2
  obtain ⟨b1, u1, hr1, hm1⟩ := exists_head_len _ 1 hm0
  obtain ⟨b2, u2, hr2, hm2⟩ := exists_head_len _ 0 hm1
  have hS2 : shuffle (rs 1) c2 = [b0, b1, b2] := by
    rw [hr0, hr1, hr2, List.length_eq_zero.mp hm2]
  have hpool : mixCustomPool rs [c1, c2] = [a0, b0, a1, b1, a2, b2, a3, a4] := by
    rw [mixCustomPool, hfilters]
    show roundRobinPool [shuffle (rs 0) c1, shuffle (rs 1) c2] 100 = _
    rw [hS1, hS2]
    rfl
  have hpoolmem : ∀ x ∈ ([a0, b0, a1, b1, a2, b2, a3, a4] : List Item),
      x ∈ c1 ++ c2 := by
    have ha : ∀ x ∈ ([a0, a1, a2, a3, a4] : List Item), x ∈ c1 :=
      fun x hx => (shuffle_perm (rs 0) c1).mem_iff.mp (by rw [hS1]; exact hx)
    have hb : ∀ x ∈ ([b0, b1, b2] : List Item), x ∈ c2 :=
      fun x hx => (shuffle_perm (rs 1) c2).mem_iff.mp (by rw [hS2]; exact hx)
    intro x hx
    simp only [List.mem_cons, List.not_mem_nil, or_false] at hx
    rcases hx with rfl | rfl | rfl | rfl | rfl | rfl | rfl | rfl
    all_goals first
      | (apply List.mem_append_left; apply ha; simp; done)
      | (apply List.mem_append_right; apply hb; simp; done)
  rw [List.map_append, List.nodup_append] at hnd
  obtain ⟨hndco, hndo, hdisj⟩ := hnd
  have hUC : ([a0, b0, a1, b1, a2, b2, a3, a4] : List Item).filter
      (fun v => !(official.map (·.id)).contains v.id) =
      [a0, b0, a1, b1, a2, b2, a3, a4] := by
    apply List.filter_eq_self.mpr
    intro v hv
    have hvid : v.id ∈ (c1 ++ c2).map (·.id) :=
      List.mem_map_of_mem _ (hpoolmem v hv)
    have hnotin : v.id ∉ official.map (·.id) := hdisj hvid
    simpa using hnotin
  have hUO : official.filter
      (fun v => !(([a0, b0, a1, b1, a2, b2, a3, a4] : List Item).map
        (·.id)).contains v.id) = official := by
    apply List.filter_eq_self.mpr
    intro v hv
    have hvido : v.id ∈ official.map (·.id) := List.mem_map_of_mem _ hv
    have hnotin : v.id ∉ ([a0, b0, a1, b1, a2, b2, a3, a4] : List Item).map
        (·.id) := by
      intro hin
      rcases List.mem_map.mp hin with ⟨w, hw, hwid⟩
      have hwc : w.id ∈ (c1 ++ c2).map (·.id) :=
        List.mem_map_of_mem _ (hpoolmem w hw)
      rw [hwid] at hwc
      exact hdisj hwc hvido
    simpa using hnotin
  have hmix : mixVideos rAll rs [c1, c2] official =
      altInterleave [a0, b0, a1, b1, a2, b2, a3, a4] (official.take 8) := by
    rw [mixVideos]
    rw [if_neg (by simp)]
    rw [if_neg (by simp [eo])]
    rw [if_neg (by rw [hfilters]; simp [List.isEmpty_iff, List.enum])]
    simp only [hpool, hUC, hUO]
    have hmin : min ([a0, b0, a1, b1, a2, b2, a3, a4] : List Item).length
        official.length = 8 := by
      simp [ho]
    rw [hmin]
    rw [List.take_of_length_le (by simp :
      ([a0, b0, a1, b1, a2, b2, a3, a4] : List Item).length ≤ 8)]
  refine ⟨by rw [hpool]; rfl, ?_, ?_, ?_⟩
  · rw [hmix, altInterleave_length]
    simp [List.length_take, ho]
  · intro i hi
    have hlt : (official.take 8).length = 8 := by simp [List.length_take, ho]
    have hget := altInterleave_get [a0, b0, a1, b1, a2, b2, a3, a4]
      (official.take 8) (by simp [hlt]) i (by simpa using hi)
    constructor
    · refine ⟨([a0, b0, a1, b1, a2, b2, a3, a4] : List Item).get
        ⟨i, by simpa using hi⟩, ?_, ?_⟩
      · rw [hmix, hget.1]
        exact List.getElem?_eq_getElem _
      · exact hpoolmem _ (List.get_mem _ _ _)
    · refine ⟨(official.take 8).get ⟨i, by rw [hlt]; exact hi⟩, ?_, ?_⟩
      · rw [hmix, hget.2]
        exact List.getElem?_eq_getElem _
      · exact List.take_subset _ _ (List.get_mem _ _ _)
  · rw [hmix]
    have hperm := (altInterleave_perm [a0, b0, a1, b1, a2, b2, a3, a4]
      (official.take 8)).map (·.id)
    rw [List.Perm.nodup_iff hperm, List.map_append, List.nodup_append]
    refine ⟨?_, ?_, ?_⟩
    · have hpp : ([a0, b0, a1, b1, a2, b2, a3, a4] : List Item).Perm (c1 ++ c2) := by
        have hx : ([a0, b0, a1, b1, a2, b2, a3, a4] : List Item).Perm
            ([a0, a1, a2, a3, a4] ++ [b0, b1, b2]) := by
          apply List.perm_iff_count.mpr
          intro x
          simp [List.count_cons, List.count_append]
          omega
        refine hx.trans ?_
        rw [← hS1, ← hS2]
        exact (shuffle_perm (rs 0) c1).append (shuffle_perm (rs 1) c2)
      exact ((hpp.map (·.id)).nodup_iff).mpr hndco
    · exact ((List.take_sublist 8 official).map (·.id)).nodup hndo
    · intro z hz1 hz2
      rcases List.mem_map.mp hz1 with ⟨w, hw, rfl⟩
      have hzc : w.id ∈ (c1 ++ c2).map (·.id) :=
        List.mem_map_of_mem _ (hpoolmem w hw)
      rcases List.mem_map.mp hz2 with ⟨u, hu, huid⟩
      have huo : w.id ∈ official.map (·.id) := by
        rw [← huid]
        exact List.mem_map_of_mem _ (List.take_subset _ _ hu)
      exact hdisj hzc huo

/-- Concrete custom source of 5 items for the C4 witness. -/
def c4c1 : List Item :=
  [{ id := "c1a" }, { id := "c1b" }, { id := "c1c" }, { id := "c1d" },
   { id := "c1e" }]

/-- Concrete custom source of 3 items for the C4 witness. -/
def c4c2 : List Item := [{ id := "c2a" }, { id := "c2b" }, { id := "c2c" }]

/-- Concrete official pool of 20 items for the C4 witness. -/
def c4official : List Item :=
  (List.range 20).map (fun n => { id := "o" ++ toString n })

/-- C4 witness: the blend theorem at concrete 5/3/20-item pools with
distinct identifiers. -/
theorem c4_two_custom_blend_witness :
    (mixCustomPool (fun _ _ => 0) [c4c1, c4c2]).length = 8 ∧
    (mixVideos (fun _ => 0) (fun _ _ => 0) [c4c1, c4c2] c4official).length = 16 ∧
    (∀ i, i < 8 →
      (∃ x, (mixVideos (fun _ => 0) (fun _ _ => 0) [c4c1, c4c2] c4official)[2 * i]?
          = some x ∧ x ∈ c4c1 ++ c4c2) ∧
      (∃ y, (mixVideos (fun _ => 0) (fun _ _ => 0) [c4c1, c4c2]
          c4official)[2 * i + 1]? = some y ∧ y ∈ c4official)) ∧
    ((mixVideos (fun _ => 0) (fun _ _ => 0) [c4c1, c4c2] c4official).map
      (·.id)).Nodup :=
  c4_two_custom_blend (fun _ => 0) (fun _ _ => 0) c4c1 c4c2 c4official
    (by decide) (by decide) (by decide) (by decide)

/-! ## The relational-store video query (`getVideosByPlaylistId`)

```sql
SELECT … FROM videos v JOIN playlist_videos pv … JOIN playlists p …
WHERE p.id = $1 AND v.is_flagged = false [AND id NOT IN (…)]
ORDER BY RANDOM() [LIMIT n]
```
The joined table is an oracle `String → List DbVideoRow` (the rows of the
store for a playlist, `is_flagged` included so the `WHERE` clause can
filter); `ORDER BY RANDOM()` is a shuffle; JavaScript `if (limit)` treats
`0`/`null` as no limit. -/

/-- A row of the store's video query (columns the query selects, plus
`is_flagged` read by the `WHERE` clause). -/
structure DbVideoRow where
  id : String
  title : Option String := none
  artist : Option String := none
  song : Option String := none
  durationSeconds : Option Nat := none
  isLimited : Bool := false
  year : Option Int := none
  playlistName : String := ""
  isFlagged : Bool := false
deriving DecidableEq, Repr

/-- The shape `getVideosByPlaylistId` returns:
`{videos, playlistLabel, playlistId}`. -/
structure DbVideosResult where
  videos : List DbVideoRow
  playlistLabel : String
  playlistId : String
deriving DecidableEq, Repr

/-- `getVideosByPlaylistId(playlistId, limit, excludeVideoIds)`. -/
def getVideosByPlaylistId (dbRows : String → List DbVideoRow)
    (rdb : Nat → Nat) (playlistId : String) (limit : Option Nat)
    (excludeVideoIds : List String) : DbVideosResult :=
  let rows := (dbRows playlistId).filter
    (fun v => !v.isFlagged && !excludeVideoIds.contains v.id)
  let rows := shuffle rdb rows
  let rows := match limit with
    | some (n + 1) => rows.take (n + 1)
    | _ => rows
  { videos := rows,
    playlistLabel := ((rows.head?).map (·.playlistName)).getD "",
    playlistId := playlistId }

/-- C1 (amended): every video the relational-store query returns — the
store path's only video source — satisfies `is_flagged = false` and is
outside the exclusion set, on every call; the external-API fallback path
serves upstream items without consulting the suppression state (see the
counterexample below). -/
theorem c1_amended_store_path_excludes_flagged
    (dbRows : String → List DbVideoRow) (rdb : Nat → Nat) (playlistId : String)
    (limit : Option Nat) (excludeVideoIds : List String) (v : DbVideoRow)
    (hv : v ∈ (getVideosByPlaylistId dbRows rdb playlistId limit
      excludeVideoIds).videos) :
    v.isFlagged = false ∧ v.id ∉ excludeVideoIds := by
  unfold getVideosByPlaylistId at hv
  have hv' : v ∈ shuffle rdb ((dbRows playlistId).filter
      (fun r => !r.isFlagged && !excludeVideoIds.contains r.id)) := by
    rcases limit with _ | (_ | n)
    · simpa using hv
    · simpa using hv
    · exact List.mem_of_mem_take (by simpa using hv)
  have hmem := (shuffle_perm rdb _).mem_iff.mp hv'
  have hfil := List.mem_filter.mp hmem
  have hcond := hfil.2
  simp at hcond
  exact hcond

/-- A store row flagged as globally suppressed. -/
def cexFlaggedRow : DbVideoRow :=
  { id := "badvid", title := some "Bad", playlistName := "Rock",
    isFlagged := true }

/-- An unflagged store row. -/
def cexGoodRow : DbVideoRow := { id := "goodvid", playlistName := "Rock" }

/-- The store's joined rows for the C1 theorems. -/
def cexRows : String → List DbVideoRow :=
  fun pid => if pid = "P1" then [cexFlaggedRow, cexGoodRow] else []

/-- C1 witness: the amended theorem at a concrete two-row store whose
query returns only the unflagged row. -/
theorem c1_amended_store_path_excludes_flagged_witness :
    cexGoodRow.isFlagged = false ∧ cexGoodRow.id ∉ ([] : List String) :=
  c1_amended_store_path_excludes_flagged cexRows (fun _ => 0) "P1" none []
    cexGoodRow (by decide)

/-! ## Block assembly and the dual-backend fallback

`getChannelBlock` (cache/external-API path) and
`getChannelBlockWithFallback` (store path with one-shot fallback).
External effects are oracles in `Env`: `fetched` is the result of
`getPlaylistVideos` for a playlist (total — that function swallows
errors, see C8 — and applies the per-call fetch limits), `fetchApi` the
raw `fetchPlaylistItems` (which can throw, e.g. without an API key),
`names` is `getPlaylistName` (`null` on error), and the `db…` fields are
the `dbService` query primitives, each of which may throw. Every
`Math.random()` pick draws from an oracle at a distinct call-site
index. -/

/-- The special-event configuration (`SPECIAL_EVENT_CONFIG`). -/
structure SpecialConfig where
  enabled : Bool
  playlists : List PlaylistRef
deriving DecidableEq, Repr

/-- A playlist row as the store returns it (`getAllPlaylistsForChannel`),
or an ad hoc custom playlist object of the store branch (`name` absent). -/
structure SelPlaylist where
  id : String
  name : Option String := none
  isCustom : Bool := false
deriving DecidableEq, Repr

/-- Placeholder for a JavaScript `undefined` playlist pick (out-of-range
random index on an empty array); unreachable in the guarded branches. -/
def noPlaylist : PlaylistRef := { id := "" }

/-- Placeholder for a JavaScript `undefined` store-branch playlist pick. -/
def noSel : SelPlaylist := { id := "" }

/-- A playlist row as `getAllPlaylistsForChannel` returns it. -/
structure DbPlaylistRow where
  id : String
  name : String
  description : Option String := none
deriving DecidableEq, Repr

/-- The environment of the orchestrator: configuration, upstream/store
oracles and randomness oracles. -/
structure Env where
  channels : String → List PlaylistRef
  fetched : String → List Item
  fetchApi : String → Except String (List Item)
  names : String → Option String
  bumpersCache : List Item
  specialConfig : SpecialConfig
  useDatabase : Bool
  dbAllPlaylistsForChannel : String → Except String (List DbPlaylistRow)
  dbVideosByPlaylistId : String → Option Nat → List String →
    Except String DbVideosResult
  dbRandomBumpers : Nat → Except String (List Item)
  rsel : Nat → Nat
  rvid : Nat → Nat
  rbump : Nat → Nat
  pick : Option Nat → Nat

/-- `isValidPlaylistId`: alphanumeric with dash/underscore, at least 13
characters. -/
def isValidPlaylistId (pid : String) : Bool :=
  decide (13 ≤ pid.length) &&
    pid.toList.all (fun ch => ch.isAlphanum || ch == '-' || ch == '_')

/-- `selectRandomPlaylist(channel, customPlaylistIds, excludePlaylistIds,
preferCustom)`: combine official and valid custom playlists, honour
exclusions with a reset when they eliminate everything, and zig-zag
between the pools according to `preferCustom`. -/
def selectRandomPlaylist (channels : String → List PlaylistRef)
    (rsel : Nat → Nat) (channel : String)
    (customPlaylistIds excludePlaylistIds : List String)
    (preferCustom : Bool) : Except String PlaylistRef :=
  let officialPlaylists := channels channel
  let customPlaylists := (customPlaylistIds.filter isValidPlaylistId).map
    (fun id => ({ id := id, label := none, isCustom := true } : PlaylistRef))
  let allPlaylists := officialPlaylists ++ customPlaylists
  if allPlaylists.isEmpty then
    .error ("No playlists available for channel: " ++ channel)
  else
    let availablePlaylists := allPlaylists.filter
      (fun p => !excludePlaylistIds.contains p.id)
    if availablePlaylists.isEmpty then
      .ok (allPlaylists.getD (rsel 0 % allPlaylists.length) noPlaylist)
    else if !customPlaylists.isEmpty && preferCustom then
      let availableCustom := availablePlaylists.filter (·.isCustom)
      if !availableCustom.isEmpty then
        .ok (availableCustom.getD (rsel 1 % availableCustom.length) noPlaylist)
      else
        let availableOfficial := availablePlaylists.filter (fun p => !p.isCustom)
        .ok (availableOfficial.getD (rsel 2 % availableOfficial.length) noPlaylist)
    else if !customPlaylists.isEmpty && !preferCustom then
      let availableOfficial := availablePlaylists.filter (fun p => !p.isCustom)
      if !availableOfficial.isEmpty then
        .ok (availableOfficial.getD (rsel 3 % availableOfficial.length) noPlaylist)
      else
        let availableCustom := availablePlaylists.filter (·.isCustom)
        .ok (availableCustom.getD (rsel 4 % availableCustom.length) noPlaylist)
    else
      .ok (availablePlaylists.getD (rsel 5 % availablePlaylists.length) noPlaylist)

/-- `getRandomChannelBlock(customPlaylistIds, excludeVideoIds)`: sample 8
playlists across the regular channels, merge with valid custom playlists
(tagging their videos with the playlist label), dedupe, exclude, reset,
shuffle, take 12, interleave bumpers. Per-playlist fetch errors are
swallowed inside `fetched`. -/
def getRandomChannelBlock (env : Env)
    (customPlaylistIds excludeVideoIds : List String) : Except String Block :=
  let channelsToInclude :=
    ["rock", "hiphop", "2000s", "1990s", "1980s", "live", "shows"]
  let allPlaylists := (channelsToInclude.map env.channels).flatten
  let selectedPlaylists := (shuffle env.rsel allPlaylists).take 8
  let officialResults := selectedPlaylists.map (fun p => env.fetched p.id)
  let customResults := (customPlaylistIds.filter isValidPlaylistId).map
    (fun pid =>
      let lbl := (env.names pid).getD ("Custom Playlist (" ++ pid ++ ")")
      (env.fetched pid).map (fun v => { v with playlistLabel := some lbl }))
  let allVideos := dedupe (officialResults ++ customResults).flatten
  let availableVideos := allVideos.filter
    (fun v => !excludeVideoIds.contains v.id)
  let availableVideos := if availableVideos.isEmpty then allVideos
    else availableVideos
  let blockVideos := (shuffle env.rvid availableVideos).take 12
  .ok { playlistLabel := some "",
        playlistId := "random-mix",
        items := insertBumpersIntoBlock env.bumpersCache env.rbump blockVideos
          (some .positional) }

/-- `getSpecialChannelBlock()`: a random configured playlist, fetched via
the external API, filled to 12 (the fill loop here is guarded by
`allVideos.length > 0`), with bumpers from the store in database mode and
from the cache otherwise. -/
def getSpecialChannelBlock (env : Env) : Except String Block :=
  if !env.specialConfig.enabled || env.specialConfig.playlists.isEmpty then
    .error "Special channel is not active"
  else
    let playlist := env.specialConfig.playlists.getD
      (env.rsel 6 % env.specialConfig.playlists.length) noPlaylist
    let allVideos := env.fetched playlist.id
    if allVideos.isEmpty then .error "No videos found for special channel"
    else
      let allVideos := shuffle env.rvid allVideos
      let blockVideos := fillLoopFuel 12 12 allVideos (allVideos.take 12)
      if env.useDatabase then do
        let videoItems := blockVideos.map (fun v =>
          ({ id := v.id, title := v.title, artist := v.artist, song := v.song,
             year := v.year, isLimited := true, isBumper := false } : Item))
        let bumpers ← env.dbRandomBumpers 4
        .ok { playlistLabel := playlist.label,
              playlistId := playlist.id,
              items := insertBumpersIntoBlockFromDB env.pick videoItems bumpers
                .positional }
      else
        .ok { playlistLabel := playlist.label,
              playlistId := playlist.id,
              items := insertBumpersIntoBlock env.bumpersCache env.rbump
                blockVideos (some .positional) }

/-- `getChannelBlock(channel, …)`: the cache/external-API path. -/
def getChannelBlock (env : Env) (channel : String)
    (customPlaylistIds excludePlaylistIds excludeVideoIds : List String)
    (preferCustom : Bool) : Except String Block :=
  if channel = "random" then
    getRandomChannelBlock env customPlaylistIds excludeVideoIds
  else if channel = "special" then getSpecialChannelBlock env
  else do
    let selected ← selectRandomPlaylist env.channels env.rsel channel
      customPlaylistIds excludePlaylistIds preferCustom
    let selected := if selected.isCustom then
        { selected with label := some ((env.names selected.id).getD
            ("Custom Playlist (" ++ selected.id ++ ")")) }
      else selected
    .ok (createProgrammingBlock env.bumpersCache env.rvid env.rbump selected
      channel (env.fetched selected.id) excludeVideoIds)

/-- The store branch of `getChannelBlockWithFallback` for the random
channel: limited store queries per playlist, custom playlists via the raw
external fetch (both may throw, aborting the branch). -/
def dbRandomBranch (env : Env)
    (customPlaylistIds excludeVideoIds : List String) : Except String Block := do
  let channelsToInclude :=
    ["rock", "hiphop", "2000s", "1990s", "1980s", "live", "shows"]
  let arrays ← channelsToInclude.mapM env.dbAllPlaylistsForChannel
  let allDbPlaylists := arrays.flatten
  let customPlaylists := (customPlaylistIds.filter isValidPlaylistId).map
    (fun id => ({ id := id, isCustom := true } : SelPlaylist))
  let allPlaylists := allDbPlaylists.map
    (fun p => ({ id := p.id, name := some p.name, isCustom := false } :
      SelPlaylist)) ++ customPlaylists
  if allPlaylists.isEmpty then
    .error "No playlists available for random channel"
  else do
    let videoArrays ← allPlaylists.mapM (fun playlist =>
      if playlist.isCustom then env.fetchApi playlist.id
      else do
        let result ← env.dbVideosByPlaylistId playlist.id (some 50) []
        .ok (result.videos.map (fun v =>
          ({ id := v.id, title := v.title, artist := v.artist,
             song := v.song } : Item))))
    let allVideos := dedupe videoArrays.flatten
    let availableVideos := allVideos.filter
      (fun v => !excludeVideoIds.contains v.id)
    let availableVideos := if availableVideos.isEmpty then allVideos
      else availableVideos
    let blockVideos := (shuffle env.rvid availableVideos).take 12
    let items := blockVideos.map (fun v =>
      ({ id := v.id, title := v.title, artist := v.artist, song := v.song,
         isLimited := false, isBumper := false } : Item))
    let bumpers ← env.dbRandomBumpers 4
    .ok { playlistLabel := some "",
          playlistId := "random-mix",
          items := insertBumpersIntoBlockFromDB env.pick items bumpers
            .positional }

/-- The body of the `try` block of `getChannelBlockWithFallback` (special
channel: immediate external-API delegation; random channel: the limited
store aggregation; otherwise: store playlists plus custom, zig-zag
selection, store or external fetch, bumpers from the store). Any
`.error` here is caught by the wrapper. -/
def dbTryBranch (env : Env) (channel : String)
    (customPlaylistIds excludePlaylistIds excludeVideoIds : List String)
    (preferCustom : Bool) : Except String Block :=
  if channel = "special" then
    getChannelBlock env channel customPlaylistIds excludePlaylistIds
      excludeVideoIds preferCustom
  else if channel = "random" then
    dbRandomBranch env customPlaylistIds excludeVideoIds
  else do
    let dbPlaylists ← env.dbAllPlaylistsForChannel channel
    let customPlaylists := (customPlaylistIds.filter isValidPlaylistId).map
      (fun id => ({ id := id, isCustom := true } : SelPlaylist))
    let allPlaylists := dbPlaylists.map
      (fun p => ({ id := p.id, name := some p.name, isCustom := false } :
        SelPlaylist)) ++ customPlaylists
    if allPlaylists.isEmpty then
      .error ("No playlists available for channel: " ++ channel)
    else do
      let availablePlaylists := allPlaylists.filter
        (fun p => !excludePlaylistIds.contains p.id)
      let availableList := if !availablePlaylists.isEmpty then
          availablePlaylists
        else allPlaylists
      let selectedPlaylist :=
        if customPlaylists.isEmpty then
          availableList.getD (env.rsel 10 % availableList.length) noSel
        else if preferCustom then
          let availableCustom := availableList.filter (·.isCustom)
          if !availableCustom.isEmpty then
            availableCustom.getD (env.rsel 11 % availableCustom.length) noSel
          else
            let availableDB := availableList.filter (fun p => !p.isCustom)
            availableDB.getD (env.rsel 12 % availableDB.length) noSel
        else
          let availableDB := availableList.filter (fun p => !p.isCustom)
          if !availableDB.isEmpty then
            availableDB.getD (env.rsel 13 % availableDB.length) noSel
          else
            let availableCustom := availableList.filter (·.isCustom)
            availableCustom.getD (env.rsel 14 % availableCustom.length) noSel
      let blockSize := if channel = "shows" then 3 else 12
      let bumperInterval := if channel = "shows" then BumperPattern.shows
        else .positional
      if selectedPlaylist.isCustom then do
        let playlistLabel := (env.names selectedPlaylist.id).getD
          ("Custom Playlist (" ++ selectedPlaylist.id ++ ")")
        let videos ← env.fetchApi selectedPlaylist.id
        let availableVideos := videos.filter
          (fun v => !excludeVideoIds.contains v.id)
        let availableVideos := if availableVideos.isEmpty then videos
          else availableVideos
        let availableVideos := shuffle env.rvid availableVideos
        let blockVideos := if availableVideos.isEmpty then
            availableVideos.take blockSize
          else fillLoopFuel blockSize blockSize availableVideos
            (availableVideos.take blockSize)
        let items := blockVideos.map (fun v =>
          ({ id := v.id, title := v.title, artist := v.artist, song := v.song,
             isLimited := false, isBumper := false } : Item))
        let bumpers ← env.dbRandomBumpers 10
        .ok { playlistLabel := some playlistLabel,
              playlistId := selectedPlaylist.id,
              items := insertBumpersIntoBlockFromDB env.pick items bumpers
                bumperInterval }
      else do
        let result ← env.dbVideosByPlaylistId selectedPlaylist.id
          (some blockSize) excludeVideoIds
        let items := result.videos.map (fun v =>
          ({ id := v.id, title := v.title, artist := v.artist, song := v.song,
             isLimited := v.isLimited, isBumper := false } : Item))
        let bumpers ← env.dbRandomBumpers 10
        .ok { playlistLabel := selectedPlaylist.name,
              playlistId := selectedPlaylist.id,
              items := insertBumpersIntoBlockFromDB env.pick items bumpers
                bumperInterval }

/-- `getChannelBlockWithFallback(channel, …)`: try the store branch when
the store backend is enabled; on any error fall through to the
external-API implementation. -/
def getChannelBlockWithFallback (env : Env) (channel : String)
    (customPlaylistIds excludePlaylistIds excludeVideoIds : List String)
    (preferCustom : Bool) : Except String Block :=
  if env.useDatabase then
    match dbTryBranch env channel customPlaylistIds excludePlaylistIds
        excludeVideoIds preferCustom with
    | .ok b => .ok b
    | .error _ => getChannelBlock env channel customPlaylistIds
        excludePlaylistIds excludeVideoIds preferCustom
  else getChannelBlock env channel customPlaylistIds excludePlaylistIds
    excludeVideoIds preferCustom

/-- C6: with the store backend enabled, an error anywhere in the
store-backed branch is not propagated to the caller: the orchestrator
returns exactly the cache/external-API path's result, a `Block` of the
same `{playlistLabel, playlistId, items}` shape. -/
theorem c6_fallback_on_db_error (env : Env) (channel : String)
    (customPlaylistIds excludePlaylistIds excludeVideoIds : List String)
    (preferCustom : Bool) (e : String)
    (hdb : env.useDatabase = true)
    (herr : dbTryBranch env channel customPlaylistIds excludePlaylistIds
      excludeVideoIds preferCustom = .error e) :
    getChannelBlockWithFallback env channel customPlaylistIds
      excludePlaylistIds excludeVideoIds preferCustom =
    getChannelBlock env channel customPlaylistIds excludePlaylistIds
      excludeVideoIds preferCustom := by
  rw [getChannelBlockWithFallback, hdb, herr]
  rfl

/-- An item served by the external API whose id the store has flagged. -/
def cexBadItem : Item := { id := "badvid" }

/-- The environment of the C1/C6 concrete runs: one `rock` playlist whose
upstream fetch returns the flagged item, an empty bumper cache, the store
backend enabled but failing every query. -/
def cexEnv : Env :=
  { channels := fun ch =>
      if ch = "rock" then [{ id := "P1", label := some "Rock Label" }] else [],
    fetched := fun _ => [cexBadItem],
    fetchApi := fun _ => .ok [cexBadItem],
    names := fun _ => none,
    bumpersCache := [],
    specialConfig := { enabled := false, playlists := [] },
    useDatabase := true,
    dbAllPlaylistsForChannel := fun _ => .error "connection refused",
    dbVideosByPlaylistId := fun _ _ _ => .error "connection refused",
    dbRandomBumpers := fun _ => .error "connection refused",
    rsel := fun _ => 0,
    rvid := fun _ => 0,
    rbump := fun _ => 0,
    pick := fun _ => 0 }

/-- The block the fallback path serves in that environment: the flagged
item repeated to the block size. -/
def cexBlock : Block :=
  { playlistLabel := some "Rock Label", playlistId := "P1",
    items := List.replicate 12 cexBadItem }

/-- C1 counterexample: `badvid` is flagged (globally suppressed) in the
store, but when the store is unreachable the orchestrator falls back to
the external-API path, which serves a block containing `badvid`: the
suppression state is not consulted on the fallback path, refuting the
claim for that path. -/
theorem c1_counterexample :
    cexFlaggedRow.isFlagged = true ∧
    cexFlaggedRow ∈ cexRows "P1" ∧
    getChannelBlockWithFallback cexEnv "rock" [] [] [] false = .ok cexBlock ∧
    cexBadItem ∈ cexBlock.items ∧
    cexBadItem.id = cexFlaggedRow.id :=
  ⟨rfl, by decide, rfl, by decide, rfl⟩

/-- C6 witness: the fallback theorem at the failing-store environment. -/
theorem c6_fallback_on_db_error_witness :
    getChannelBlockWithFallback cexEnv "rock" [] [] [] false =
      getChannelBlock cexEnv "rock" [] [] [] false :=
  c6_fallback_on_db_error cexEnv "rock" [] [] [] false "connection refused"
    rfl rfl

end NMTV
